import Mathlib

/-!
# ODBC handle lifecycle and diagnostics (`src/Common/ODBC/Handle.cpp`)

A shallow embedding of `AppSecInc::Databases::ODBC::ODBCHandle`:

* the driver (`SQLAllocHandle`, `SQLFreeHandle`, `SQLGetDiagRec`, `SQLGetDiagField`) is an
  external collaborator and appears as an oracle, the handle primitives over an
  arbitrary driver state `σ`;
* exceptions thrown through `CHECK_BOOL` become `Except ODBCException`;
* loops that poll the driver carry a fuel argument, `none` meaning that the fuel ran
  out before the driver reported a non-success status;
* `std::wstring` is a list of characters, `SQLSMALLINT` values are integers kept in
  the 16-bit signed range by `toSQLSMALLINT`;
* `std::regex_match` over the ECMAScript grammar is a backtracking matcher in
  continuation-passing style, as in ECMA-262 (matchers and continuations).
-/

set_option maxRecDepth 8000

namespace ODBC

/-! ## Basic types -/

deriving instance DecidableEq for Except

/-- Wide strings (`std::wstring`), up to the terminating NUL. -/
abbrev wstring := List Char

/-- Driver handles (`SQLHANDLE`, a pointer); `0` is the null handle. -/
abbrev SQLHANDLE := Nat

/-- Signed 16-bit integers (`SQLSMALLINT`), carried as integers. -/
abbrev SQLSMALLINT := Int

/-- Driver return codes (`SQLRETURN`, a `SQLSMALLINT`). -/
abbrev SQLRETURN := Int

/-- The null pointer. -/
def NULL : SQLHANDLE := 0

/-- Conversion of an integer to `SQLSMALLINT`: reduction modulo `2^16` into
`-32768 .. 32767`. -/
def toSQLSMALLINT (n : Int) : SQLSMALLINT := (n + 32768) % 65536 - 32768

def SQL_SUCCESS : SQLRETURN := 0
def SQL_SUCCESS_WITH_INFO : SQLRETURN := 1
def SQL_NO_DATA : SQLRETURN := 100
def SQL_ERROR : SQLRETURN := -1
def SQL_INVALID_HANDLE : SQLRETURN := -2

def SQL_UNKNOWN_TYPE : SQLSMALLINT := 0
def SQL_HANDLE_ENV : SQLSMALLINT := 1
def SQL_HANDLE_DBC : SQLSMALLINT := 2
def SQL_HANDLE_STMT : SQLSMALLINT := 3
def SQL_HANDLE_DESC : SQLSMALLINT := 4

/-- The `SQL_SUCCEEDED(rc)` test of the ODBC headers, `(((rc)&(~1))==0)`: the
return code is `SQL_SUCCESS` or `SQL_SUCCESS_WITH_INFO`. -/
def SQL_SUCCEEDED (rc : SQLRETURN) : Bool :=
  rc == SQL_SUCCESS || rc == SQL_SUCCESS_WITH_INFO

/-- One error record (`ODBCError`), fields in the order `GetErrors` assigns them. -/
structure ODBCError where
  message : wstring
  native_error : Int
  state : wstring
deriving DecidableEq, Repr

/-- Modelled from the spec: `CHECK_BOOL(cond, message)` is declared outside the
sources at hand; it throws when `cond` is false and streams `message` only then.
The failure kinds are those of the error taxonomy, one per throwing site:
`AllocationError` (lines 26 and 30), `ReleaseError` (lines 39 and 43),
`NoDiagnosticsError` (lines 62 and 152, which stream the handle and the identifier),
`InvalidMessageFormatError` (line 101). The check of line 125, which the taxonomy
does not name, is `DiagFieldStatusError`; it streams the record number and the
return code. -/
inductive ODBCException where
  | AllocationError (message : wstring)
  | ReleaseError (message : wstring)
  | NoDiagnosticsError (handle : SQLHANDLE) (identifier : Int)
  | InvalidMessageFormatError
  | DiagFieldStatusError (i : SQLSMALLINT) (rc : SQLRETURN)
deriving DecidableEq, Repr

/-! ## Error records: `GetErrors` and `GetError` -/

/-- What `SQLGetDiagRec` leaves behind for one record number: the return code and
the contents of the `sql_state`, `sql_native_error` and `sql_message` buffers. -/
structure DiagRec where
  rc : SQLRETURN
  sql_state : wstring
  sql_native_error : Int
  sql_message : wstring
deriving DecidableEq, Repr

/-- The diagnostic-record primitive: handle type, handle, record number. -/
abbrev DiagRecFn := SQLSMALLINT → SQLHANDLE → SQLSMALLINT → DiagRec

/-- The record `GetErrors` builds from the buffers (lines 144-147). -/
def DiagRec.toError (r : DiagRec) : ODBCError :=
  { message := r.sql_message, native_error := r.sql_native_error, state := r.sql_state }

/-- The `while` loop of `GetErrors` (lines 141-150): `i` is a `SQLSMALLINT`, so
`i++` wraps. -/
def GetErrors.loop (SQLGetDiagRec : DiagRecFn) (handle : SQLHANDLE) (type : Int) :
    Nat → SQLSMALLINT → List ODBCError → Option (List ODBCError)
  | 0, _, _ => none
  | fuel + 1, i, errors =>
    let r := SQLGetDiagRec (toSQLSMALLINT type) handle i
    if SQL_SUCCEEDED r.rc then
      GetErrors.loop SQLGetDiagRec handle type fuel (toSQLSMALLINT (i + 1))
        (errors ++ [r.toError])
    else
      some errors

/-- `ODBCHandle::GetErrors` (lines 132-156). -/
def GetErrors (fuel : Nat) (SQLGetDiagRec : DiagRecFn) (handle : SQLHANDLE) (type : Int) :
    Option (Except ODBCException (List ODBCError)) :=
  match GetErrors.loop SQLGetDiagRec handle type fuel 1 [] with
  | none => none
  | some errors =>
    if !errors.isEmpty then some (.ok errors)
    else some (.error (.NoDiagnosticsError handle type))

/-- Decimal text of a `SQLINTEGER`, as `operator<<` prints it. -/
def showInteger (n : Int) : wstring := (toString n).toList

/-- The `for` loop of `GetError` (lines 162-168); `std::endl` puts a line feed into
the string stream. -/
def GetError.loop : List ODBCError → Nat → wstring → wstring
  | [], _, error_s => error_s
  | e :: rest, i, error_s =>
    let error_s := if i > 0 then error_s ++ ['\n'] else error_s
    GetError.loop rest (i + 1)
      (error_s ++ "SQLSTATE: ".toList ++ e.state
        ++ ", Native error: ".toList ++ showInteger e.native_error
        ++ ", Message: ".toList ++ e.message)

/-- `ODBCHandle::GetError` (lines 158-170). -/
def GetError (fuel : Nat) (SQLGetDiagRec : DiagRecFn) (handle : SQLHANDLE) (type : Int) :
    Option (Except ODBCException wstring) :=
  match GetErrors fuel SQLGetDiagRec handle type with
  | none => none
  | some (.error e) => some (.error e)
  | some (.ok errors) => some (.ok (GetError.loop errors 0 []))

/-! ## Specification vocabulary for the error-record reader -/

/-- The record the driver reports for record number `k`. -/
def reportedRecord (SQLGetDiagRec : DiagRecFn) (handle : SQLHANDLE) (type : Int) (k : Nat) :
    ODBCError :=
  (SQLGetDiagRec (toSQLSMALLINT type) handle (toSQLSMALLINT k)).toError

/-- The driver reports success for record numbers `1..N` and non-success for
`N + 1` (record numbers are `SQLSMALLINT` values). -/
def HasRecords (SQLGetDiagRec : DiagRecFn) (handle : SQLHANDLE) (type : Int) (N : Nat) : Prop :=
  (∀ k : Nat, 1 ≤ k → k ≤ N →
      SQL_SUCCEEDED (SQLGetDiagRec (toSQLSMALLINT type) handle (toSQLSMALLINT k)).rc = true) ∧
    SQL_SUCCEEDED
      (SQLGetDiagRec (toSQLSMALLINT type) handle (toSQLSMALLINT (N + 1 : Nat))).rc = false

/-- One line of the report. -/
def errorLine (e : ODBCError) : wstring :=
  "SQLSTATE: ".toList ++ e.state ++ ", Native error: ".toList ++ showInteger e.native_error
    ++ ", Message: ".toList ++ e.message

/-! ## The handle: `Allocate`, `Release`, destruction -/

/-- Driver calls that act on handles, as the handle code issues them. -/
inductive DriverCall where
  | allocHandle (type : SQLSMALLINT) (conn : SQLHANDLE)
  | freeHandle (type : SQLSMALLINT) (handle : SQLHANDLE)
deriving DecidableEq, Repr

/-- The driver, over its own state `σ`. `SQLAllocHandle` answers with the return
code, the value it leaves in the output handle and its next state; `SQLFreeHandle`
with the return code and its next state; diagnostics are read from the current
state. -/
structure Driver (σ : Type) where
  SQLAllocHandle : σ → SQLSMALLINT → SQLHANDLE → SQLRETURN × SQLHANDLE × σ
  SQLFreeHandle : σ → SQLSMALLINT → SQLHANDLE → SQLRETURN × σ
  SQLGetDiagRec : σ → DiagRecFn

/-- The driver state together with the log of handle calls made so far. -/
structure World (σ : Type) where
  state : σ
  calls : List DriverCall
deriving DecidableEq

/-- The data members of `ODBCHandle`. -/
structure ODBCHandle where
  _type : SQLSMALLINT
  _hconn : SQLHANDLE
  _handle : SQLHANDLE
deriving DecidableEq, Repr

/-- What a member function leaves behind: its result (or the exception it threw),
the members of the object and the world. -/
structure Outcome (σ : Type) where
  result : Except ODBCException Unit
  self : ODBCHandle
  world : World σ
deriving DecidableEq

/-- `ODBCHandle::ODBCHandle` (lines 8-14). -/
def ODBCHandle.ctor : ODBCHandle :=
  { _type := SQL_UNKNOWN_TYPE, _hconn := NULL, _handle := NULL }

/-- `ODBCHandle::Allocate` (lines 24-35). -/
def ODBCHandle.Allocate {σ : Type} (drv : Driver σ) (fuel : Nat) (self : ODBCHandle)
    (w : World σ) (type : SQLSMALLINT) (conn : SQLHANDLE) : Option (Outcome σ) :=
  if self._handle = NULL then
    let rc := drv.SQLAllocHandle w.state type conn
    let self : ODBCHandle := { self with _handle := rc.2.1 }
    let w : World σ := { state := rc.2.2, calls := w.calls ++ [.allocHandle type conn] }
    if SQL_SUCCEEDED rc.1 then
      some { result := .ok (), self := { self with _type := type, _hconn := conn }, world := w }
    else
      match GetError fuel (drv.SQLGetDiagRec w.state) self._hconn SQL_HANDLE_DBC with
      | none => none
      | some (.error e) => some { result := .error e, self := self, world := w }
      | some (.ok error) =>
        some { result := .error (.AllocationError ("Error allocating handle. ".toList ++ error)),
               self := self, world := w }
  else
    some { result := .error (.AllocationError "Error, handle already allocated.".toList),
           self := self, world := w }

/-- `ODBCHandle::Release` (lines 37-47). -/
def ODBCHandle.Release {σ : Type} (drv : Driver σ) (fuel : Nat) (self : ODBCHandle)
    (w : World σ) : Option (Outcome σ) :=
  if self._handle ≠ NULL then
    let rc := drv.SQLFreeHandle w.state self._type self._handle
    let w : World σ :=
      { state := rc.2, calls := w.calls ++ [.freeHandle self._type self._handle] }
    if SQL_SUCCEEDED rc.1 then
      some { result := .ok (), self := { self with _handle := NULL }, world := w }
    else
      match GetError fuel (drv.SQLGetDiagRec w.state) self._hconn SQL_HANDLE_DBC with
      | none => none
      | some (.error e) => some { result := .error e, self := self, world := w }
      | some (.ok error) =>
        some { result := .error (.ReleaseError ("Error releasing handle. ".toList ++ error)),
               self := self, world := w }
  else
    some { result := .error (.ReleaseError "Error, handle not allocated.".toList),
           self := self, world := w }

/-- `ODBCHandle::~ODBCHandle` (lines 16-22): the body has no handler, so what
`Release` throws leaves the destructor. -/
def ODBCHandle.destructor {σ : Type} (drv : Driver σ) (fuel : Nat) (self : ODBCHandle)
    (w : World σ) : Option (Outcome σ) :=
  if self._handle ≠ NULL then
    ODBCHandle.Release drv fuel self w
  else
    some { result := .ok (), self := self, world := w }

/-- A client that runs `Allocate(K, P)` and then `Release()` for each `(K, P)` of a
list and stops at the first call that throws; the result is the outcome of the last
call made. -/
def allocateReleaseCycles {σ : Type} (drv : Driver σ) (fuel : Nat) :
    List (SQLSMALLINT × SQLHANDLE) → ODBCHandle → World σ → Option (Outcome σ)
  | [], self, w => some { result := .ok (), self := self, world := w }
  | (type, conn) :: rest, self, w =>
    match ODBCHandle.Allocate drv fuel self w type conn with
    | none => none
    | some a =>
      match a.result with
      | .error e => some { a with result := .error e }
      | .ok () =>
        match ODBCHandle.Release drv fuel a.self a.world with
        | none => none
        | some r =>
          match r.result with
          | .error e => some { r with result := .error e }
          | .ok () => allocateReleaseCycles drv fuel rest r.self r.world

/-! ## The message grammar: `diag_message_regex` and `std::regex_match` -/

/-- ECMAScript line terminators: `.` matches every character but these. -/
def isLineTerminator (c : Char) : Bool :=
  c = '\n' || c = '\r' || c = '\u2028' || c = '\u2029'

/-- The character class `\s`: the `space` class of the classic locale. -/
def isSpace (c : Char) : Bool :=
  c = ' ' || c = '\t' || c = '\n' || c = '\x0b' || c = '\x0c' || c = '\r'

/-- The part of the ECMAScript pattern syntax `diag_message_regex` is written in. -/
inductive Regex where
  | char (c : Char)
  | any
  | space
  | seq (r₁ r₂ : Regex)
  | star (greedy : Bool) (r : Regex)
  | opt (r : Regex)
  | group (n : Nat) (r : Regex)
deriving DecidableEq, Repr

/-- The capturing groups inside a pattern, left to right. -/
def Regex.groups : Regex → List Nat
  | .char _ => []
  | .any => []
  | .space => []
  | .seq r₁ r₂ => r₁.groups ++ r₂.groups
  | .star _ r => r.groups
  | .opt r => r.groups
  | .group n r => n :: r.groups

/-- Number of marked sub-expressions (`mark_count`). -/
def Regex.mark_count (r : Regex) : Nat := r.groups.length

/-- The state of a match: the input from the current position on, and the
captures, indexed by group number (index `0` is filled in at the end). -/
structure MatchState where
  rest : wstring
  captures : List (Option wstring)
deriving DecidableEq, Repr

/-- Continuations of the matcher. -/
abbrev MatchCont := MatchState → Option (List (Option wstring))

/-- Reset the captures of the given groups (done before each iteration of a
quantified sub-pattern). -/
def MatchState.clear (x : MatchState) : List Nat → MatchState
  | [] => x
  | n :: ns => MatchState.clear { x with captures := x.captures.set n none } ns

/-- The ECMAScript `RepeatMatcher` for `*` and `*?`: an iteration that consumes
nothing is rejected; the matcher never moves backwards, so at most as many
iterations as there are characters left can succeed, which is what `fuel` counts. -/
def repeatMatcher (m : MatchState → MatchCont → Option (List (Option wstring)))
    (parens : List Nat) (greedy : Bool) :
    Nat → MatchState → MatchCont → Option (List (Option wstring))
  | 0, x, c => c x
  | fuel + 1, x, c =>
    let d : MatchCont := fun y =>
      if y.rest.length < x.rest.length then repeatMatcher m parens greedy fuel y c else none
    if greedy then
      match m (x.clear parens) d with
      | some z => some z
      | none => c x
    else
      match c x with
      | some z => some z
      | none => m (x.clear parens) d

/-- The backtracking matcher of a pattern: `r.run x c` matches `r` at `x` and hands
each candidate end state to `c`, in priority order, until `c` succeeds. -/
def Regex.run : Regex → MatchState → MatchCont → Option (List (Option wstring))
  | .char c, x, k =>
    match x.rest with
    | ch :: rest => if ch = c then k { x with rest := rest } else none
    | [] => none
  | .any, x, k =>
    match x.rest with
    | ch :: rest => if isLineTerminator ch then none else k { x with rest := rest }
    | [] => none
  | .space, x, k =>
    match x.rest with
    | ch :: rest => if isSpace ch then k { x with rest := rest } else none
    | [] => none
  | .seq r₁ r₂, x, k => r₁.run x (fun y => r₂.run y k)
  | .star greedy r, x, k => repeatMatcher (fun y c => r.run y c) r.groups greedy x.rest.length x k
  | .opt r, x, k =>
    match r.run (x.clear r.groups) (fun y => if y.rest.length < x.rest.length then k y else none) with
    | some z => some z
    | none => k x
  | .group n r, x, k =>
    r.run x (fun y =>
      k { y with captures :=
            y.captures.set n (some (x.rest.take (x.rest.length - y.rest.length))) })

/-- The result of a match (`std::wsmatch`): the sub-matches, none after a failed
match. -/
structure match_results where
  subs : List (Option wstring)
deriving DecidableEq, Repr

/-- Number of sub-matches (`size()`). -/
def match_results.size (m : match_results) : Nat := m.subs.length

/-- Whether sub-match `i` took part in the match (`m[i].matched`). -/
def match_results.matched (m : match_results) (i : Nat) : Bool := (m.subs.getD i none).isSome

/-- The text of sub-match `i` (`m[i]` converted to a string), empty when unmatched. -/
def match_results.str (m : match_results) (i : Nat) : wstring := (m.subs.getD i none).getD []

/-- `std::regex_match`: the pattern has to match the whole of `expression`. -/
def regex_match (expression : wstring) (re : Regex) : match_results :=
  match re.run { rest := expression, captures := List.replicate (re.mark_count + 1) none }
      (fun y => if y.rest.isEmpty then some y.captures else none) with
  | some captures => { subs := captures.set 0 (some expression) }
  | none => { subs := [] }

/-- The pattern of line 75,
`\s*\[(.*?)\]\s*\[(.*?)\]\s*(\[(.*?)\])?\s*(.*)`, term by term. -/
def diag_message_regex : Regex :=
  .seq (.star true .space)
  (.seq (.char '[') (.seq (.group 1 (.star false .any)) (.seq (.char ']')
  (.seq (.star true .space)
  (.seq (.char '[') (.seq (.group 2 (.star false .any)) (.seq (.char ']')
  (.seq (.star true .space)
  (.seq (.opt (.group 3 (.seq (.char '[') (.seq (.group 4 (.star false .any)) (.char ']')))))
  (.seq (.star true .space)
  (.group 5 (.star true .any))))))))))))

/-- Modelled from the spec: `ODBCDiagnosticsMessage` is declared in `Handle.h`,
which is not among the sources; its vendor, component and data source are optional
texts, unset in a fresh message, and its text is the message body. -/
structure ODBCDiagnosticsMessage where
  vendor : Option wstring := none
  component : Option wstring := none
  datasource : Option wstring := none
  text : wstring := []
deriving DecidableEq, Repr

/-- The parsing of one raw message in `GetDiagMessages` (lines 98-117). -/
def GetDiagMessages.parse (expression : wstring) :
    Except ODBCException ODBCDiagnosticsMessage :=
  let diag_message_match := regex_match expression diag_message_regex
  if diag_message_match.size = 6 then
    let message : ODBCDiagnosticsMessage := {}
    let message :=
      if diag_message_match.matched 1 then
        { message with vendor := some (diag_message_match.str 1) }
      else message
    let message :=
      if diag_message_match.matched 2 then
        { message with component := some (diag_message_match.str 2) }
      else message
    let message :=
      if diag_message_match.matched 4 then
        { message with datasource := some (diag_message_match.str 4) }
      else message
    let message :=
      if diag_message_match.matched 5 then
        { message with text := diag_message_match.str 5 }
      else message
    .ok message
  else
    .error .InvalidMessageFormatError

/-- A bracketed segment `[v]` of a message. -/
def bracketed (v : wstring) : wstring := '[' :: (v ++ [']'])

/-- The strings a pattern can match, whatever the order in which the matcher tries
them. -/
inductive Regex.Matches : Regex → wstring → Prop where
  | char (c : Char) : Regex.Matches (.char c) [c]
  | any (ch : Char) : isLineTerminator ch = false → Regex.Matches .any [ch]
  | space (ch : Char) : isSpace ch = true → Regex.Matches .space [ch]
  | seq {r₁ r₂ : Regex} {u w : wstring} :
    Regex.Matches r₁ u → Regex.Matches r₂ w → Regex.Matches (.seq r₁ r₂) (u ++ w)
  | starNil {g : Bool} {r : Regex} : Regex.Matches (.star g r) []
  | starCons {g : Bool} {r : Regex} {u w : wstring} :
    Regex.Matches r u → Regex.Matches (.star g r) w → Regex.Matches (.star g r) (u ++ w)
  | optNone {r : Regex} : Regex.Matches (.opt r) []
  | optSome {r : Regex} {u : wstring} : Regex.Matches r u → Regex.Matches (.opt r) u
  | group {n : Nat} {r : Regex} {u : wstring} :
    Regex.Matches r u → Regex.Matches (.group n r) u

/-- The input starts, after optional whitespace, with two bracketed segments, which
whitespace may separate. -/
def StartsWithTwoSegments (s : wstring) : Prop :=
  ∃ w₁ v w₂ c rest : wstring,
    (∀ ch ∈ w₁, isSpace ch = true) ∧ (∀ ch ∈ w₂, isSpace ch = true) ∧
    s = w₁ ++ bracketed v ++ w₂ ++ bracketed c ++ rest

/-! ## Diagnostic fields: `GetDiagFields` -/

/-- What `SQLGetDiagField` leaves behind for one record number: the return code,
the text in the `sql_message` buffer and the length it reports in
`sql_message_len` (a count of characters, hence a natural number). -/
structure DiagField where
  rc : SQLRETURN
  sql_message : wstring
  sql_message_len : Nat
deriving DecidableEq, Repr

/-- The diagnostic-field primitive: handle type, handle, record number, field
identifier, buffer length. -/
abbrev DiagFieldFn :=
  SQLSMALLINT → SQLHANDLE → SQLSMALLINT → SQLSMALLINT → SQLSMALLINT → DiagField

def SQL_MAX_MESSAGE_LENGTH : Nat := 512
def SQL_DIAG_MESSAGE_TEXT : SQLSMALLINT := 6

/-- The `while` loop of `GetDiagFields` (lines 56-60). -/
def GetDiagFields.loop (SQLGetDiagField : DiagFieldFn) (handle : SQLHANDLE)
    (type diagidentifier : Int) : Nat → SQLSMALLINT → List wstring → Option (List wstring)
  | 0, _, _ => none
  | fuel + 1, i, messages =>
    let r := SQLGetDiagField (toSQLSMALLINT type) handle i (toSQLSMALLINT diagidentifier)
      (toSQLSMALLINT SQL_MAX_MESSAGE_LENGTH)
    if SQL_SUCCEEDED r.rc then
      GetDiagFields.loop SQLGetDiagField handle type diagidentifier fuel
        (toSQLSMALLINT (i + 1)) (messages ++ [r.sql_message])
    else
      some messages

/-- `ODBCHandle::GetDiagFields` (lines 49-66). -/
def GetDiagFields (fuel : Nat) (SQLGetDiagField : DiagFieldFn) (handle : SQLHANDLE)
    (type diagidentifier : Int) : Option (Except ODBCException (List wstring)) :=
  match GetDiagFields.loop SQLGetDiagField handle type diagidentifier fuel 1 [] with
  | none => none
  | some messages =>
    if !messages.isEmpty then some (.ok messages)
    else some (.error (.NoDiagnosticsError handle diagidentifier))

/-- The text the driver reports for field `diagidentifier` of record number `k`. -/
def reportedField (SQLGetDiagField : DiagFieldFn) (handle : SQLHANDLE)
    (type diagidentifier : Int) (k : Nat) : wstring :=
  (SQLGetDiagField (toSQLSMALLINT type) handle (toSQLSMALLINT k)
    (toSQLSMALLINT diagidentifier) (toSQLSMALLINT SQL_MAX_MESSAGE_LENGTH)).sql_message

/-- The driver reports success for field `diagidentifier` of record numbers `1..N`
and non-success for `N + 1` (record numbers are `SQLSMALLINT` values). -/
def HasFields (SQLGetDiagField : DiagFieldFn) (handle : SQLHANDLE) (type diagidentifier : Int)
    (N : Nat) : Prop :=
  (∀ k : Nat, 1 ≤ k → k ≤ N →
      SQL_SUCCEEDED (SQLGetDiagField (toSQLSMALLINT type) handle (toSQLSMALLINT k)
        (toSQLSMALLINT diagidentifier) (toSQLSMALLINT SQL_MAX_MESSAGE_LENGTH)).rc = true) ∧
    SQL_SUCCEEDED (SQLGetDiagField (toSQLSMALLINT type) handle (toSQLSMALLINT (N + 1 : Nat))
      (toSQLSMALLINT diagidentifier) (toSQLSMALLINT SQL_MAX_MESSAGE_LENGTH)).rc = false

/-- Field texts of the examples: the message texts of the records of
`demoDiagRec`, whatever the buffer length. -/
def demoDiagField : DiagFieldFn := fun type handle i diagidentifier _ =>
  if type = SQL_HANDLE_DBC ∧ handle = 8 ∧ i = 1 ∧ diagidentifier = SQL_DIAG_MESSAGE_TEXT then
    { rc := SQL_SUCCESS, sql_message := "[Microsoft][ODBC Driver Manager]Memory".toList,
      sql_message_len := 38 }
  else if type = SQL_HANDLE_DBC ∧ handle = 8 ∧ i = 2 ∧ diagidentifier = SQL_DIAG_MESSAGE_TEXT then
    { rc := SQL_SUCCESS, sql_message := "[Microsoft][ODBC SQL Server Driver][SQL Server]Gone".toList,
      sql_message_len := 51 }
  else if handle = NULL then
    { rc := SQL_INVALID_HANDLE, sql_message := [], sql_message_len := 0 }
  else
    { rc := SQL_NO_DATA, sql_message := [], sql_message_len := 0 }

/-- The allocated state of a handle, as lines 18, 26 and 39 test it: `_handle` is
not null. -/
def ODBCHandle.allocated (self : ODBCHandle) : Prop := self._handle ≠ NULL

/-! ## Diagnostic messages: `GetDiagMessages` -/

/-- The `while` loop of `GetDiagMessages` (lines 85-121). The state is the record
number `i`, the size of the `sql_message` vector and the messages so far; the loop
ends with the last return code, the record number and the messages, or with the
exception of line 101. -/
def GetDiagMessages.loop (SQLGetDiagField : DiagFieldFn) (handle : SQLHANDLE) (type : Int) :
    Nat → SQLSMALLINT → Nat → List ODBCDiagnosticsMessage →
      Option (Except ODBCException (SQLRETURN × SQLSMALLINT × List ODBCDiagnosticsMessage))
  | 0, _, _, _ => none
  | fuel + 1, i, size, messages =>
    let r := SQLGetDiagField (toSQLSMALLINT type) handle i SQL_DIAG_MESSAGE_TEXT
      (toSQLSMALLINT size)
    if SQL_SUCCEEDED r.rc then
      if r.rc = SQL_SUCCESS_WITH_INFO ∧ (r.sql_message_len : Int) + 2 > toSQLSMALLINT size then
        let size := r.sql_message_len + 2
        let r := SQLGetDiagField (toSQLSMALLINT type) handle i SQL_DIAG_MESSAGE_TEXT
          (toSQLSMALLINT size)
        if r.rc ≠ SQL_SUCCESS then
          some (.ok (r.rc, i, messages))
        else
          match GetDiagMessages.parse r.sql_message with
          | .error e => some (.error e)
          | .ok message =>
            GetDiagMessages.loop SQLGetDiagField handle type fuel (toSQLSMALLINT (i + 1)) size
              (messages ++ [message])
      else
        match GetDiagMessages.parse r.sql_message with
        | .error e => some (.error e)
        | .ok message =>
          GetDiagMessages.loop SQLGetDiagField handle type fuel (toSQLSMALLINT (i + 1)) size
            (messages ++ [message])
    else
      some (.ok (r.rc, i, messages))

/-- `ODBCHandle::GetDiagMessages` (lines 68-130). -/
def GetDiagMessages (fuel : Nat) (SQLGetDiagField : DiagFieldFn) (handle : SQLHANDLE)
    (type : Int) : Option (Except ODBCException (List ODBCDiagnosticsMessage)) :=
  match GetDiagMessages.loop SQLGetDiagField handle type fuel 1 (SQL_MAX_MESSAGE_LENGTH + 2)
      [] with
  | none => none
  | some (.error e) => some (.error e)
  | some (.ok (rc, i, messages)) =>
    if rc ≠ SQL_NO_DATA ∧ rc ≠ SQL_SUCCESS then
      if rc = SQL_SUCCESS then some (.ok messages)
      else some (.error (.DiagFieldStatusError i rc))
    else
      some (.ok messages)

/-- One way for a pattern to take the matcher from a state to a state: the
alternatives the matcher chooses among, without their order. -/
inductive Regex.Steps : Regex → MatchState → MatchState → Prop where
  | char (c : Char) (rest : wstring) (caps : List (Option wstring)) :
    Regex.Steps (.char c) { rest := c :: rest, captures := caps }
      { rest := rest, captures := caps }
  | any (ch : Char) (rest : wstring) (caps : List (Option wstring)) :
    isLineTerminator ch = false →
    Regex.Steps .any { rest := ch :: rest, captures := caps } { rest := rest, captures := caps }
  | space (ch : Char) (rest : wstring) (caps : List (Option wstring)) :
    isSpace ch = true →
    Regex.Steps .space { rest := ch :: rest, captures := caps }
      { rest := rest, captures := caps }
  | seq {r₁ r₂ : Regex} {x y z : MatchState} :
    Regex.Steps r₁ x y → Regex.Steps r₂ y z → Regex.Steps (.seq r₁ r₂) x z
  | starNil {g : Bool} {r : Regex} {x : MatchState} : Regex.Steps (.star g r) x x
  | starCons {g : Bool} {r : Regex} {x y z : MatchState} :
    Regex.Steps r (x.clear r.groups) y → y.rest.length < x.rest.length →
    Regex.Steps (.star g r) y z → Regex.Steps (.star g r) x z
  | optNone {r : Regex} {x : MatchState} : Regex.Steps (.opt r) x x
  | optSome {r : Regex} {x y : MatchState} :
    Regex.Steps r (x.clear r.groups) y → y.rest.length < x.rest.length →
    Regex.Steps (.opt r) x y
  | group {n : Nat} {r : Regex} {x y : MatchState} :
    Regex.Steps r x y →
    Regex.Steps (.group n r) x
      { rest := y.rest,
        captures := y.captures.set n (some (x.rest.take (x.rest.length - y.rest.length))) }

/-- The continuation of `regex_match`: the whole input has to be used up. -/
def atEnd : MatchCont := fun y => if y.rest.isEmpty then some y.captures else none

/-- A text without line terminator. -/
def NoLineTerminator (u : wstring) : Prop := ∀ ch ∈ u, isLineTerminator ch = false

/-- A text of whitespace characters only. -/
def AllSpace (u : wstring) : Prop := ∀ ch ∈ u, isSpace ch = true

instance (u : wstring) : Decidable (NoLineTerminator u) := by
  unfold NoLineTerminator
  infer_instance

instance (u : wstring) : Decidable (AllSpace u) := by
  unfold AllSpace
  infer_instance

/-- The message grammar in words: optional whitespace, two bracketed segments, an
optional third bracketed segment and the remainder as free text, with whitespace
allowed around the segments; `ok` says which texts may stand inside a segment or
as the remainder. -/
def FollowsGrammar (ok : wstring → Prop) (s : wstring) : Prop :=
  ∃ (w₀ v w₁ c w₂ : wstring) (third : Option wstring) (w₃ t : wstring),
    AllSpace w₀ ∧ AllSpace w₁ ∧ AllSpace w₂ ∧ AllSpace w₃ ∧
    ok v ∧ ok c ∧ (∀ d, third = some d → ok d) ∧ ok t ∧
    s = w₀ ++ bracketed v ++ w₁ ++ bracketed c ++ w₂ ++ (third.map bracketed).getD [] ++ w₃ ++ t

/-! ## Drivers and handles for the examples -/

/-- Diagnostics of the examples: connection `7` carries one record, connection `8`
two, every other handle none (the null handle is answered `SQL_INVALID_HANDLE`). -/
def demoDiagRec : DiagRecFn := fun type handle i =>
  if type = SQL_HANDLE_DBC ∧ handle = 7 ∧ i = 1 then
    { rc := SQL_SUCCESS, sql_state := "42S02".toList, sql_native_error := 208,
      sql_message := "Invalid object name".toList }
  else if type = SQL_HANDLE_DBC ∧ handle = 8 ∧ i = 1 then
    { rc := SQL_SUCCESS, sql_state := "HY001".toList, sql_native_error := -1,
      sql_message := "Memory allocation error".toList }
  else if type = SQL_HANDLE_DBC ∧ handle = 8 ∧ i = 2 then
    { rc := SQL_SUCCESS_WITH_INFO, sql_state := "01004".toList, sql_native_error := 0,
      sql_message := "String data, right truncated".toList }
  else if handle = NULL then
    { rc := SQL_INVALID_HANDLE, sql_state := [], sql_native_error := 0, sql_message := [] }
  else
    { rc := SQL_NO_DATA, sql_state := [], sql_native_error := 0, sql_message := [] }

/-- A driver that grants every request: allocation yields handle `11`. -/
def grantingDriver : Driver Unit :=
  { SQLAllocHandle := fun _ _ _ => (SQL_SUCCESS, 11, ())
    SQLFreeHandle := fun _ _ _ => (SQL_SUCCESS, ())
    SQLGetDiagRec := fun _ => demoDiagRec }

/-- A driver that refuses every request with `SQL_ERROR`, leaving the output handle
null. -/
def refusingDriver : Driver Unit :=
  { SQLAllocHandle := fun _ _ _ => (SQL_ERROR, NULL, ())
    SQLFreeHandle := fun _ _ _ => (SQL_ERROR, ())
    SQLGetDiagRec := fun _ => demoDiagRec }

/-- A driver that answers every allocation with `SQL_SUCCESS` and leaves the output
handle null. -/
def emptyHandedDriver : Driver Unit :=
  { SQLAllocHandle := fun _ _ _ => (SQL_SUCCESS, NULL, ())
    SQLFreeHandle := fun _ _ _ => (SQL_SUCCESS, ())
    SQLGetDiagRec := fun _ => demoDiagRec }

/-- The world before any call. -/
def world₀ : World Unit := { state := (), calls := [] }

/-- A statement handle `11` allocated on connection `7`. -/
def statementOn7 : ODBCHandle := { _type := SQL_HANDLE_STMT, _hconn := 7, _handle := 11 }

/-- A statement handle `12` whose parent `9` has no diagnostics. -/
def statementOn9 : ODBCHandle := { _type := SQL_HANDLE_STMT, _hconn := 9, _handle := 12 }

/-- Lines joined by one line feed between consecutive lines, none before the first
and none after the last. -/
def joinLines : List wstring → wstring
  | [] => []
  | [l] => l
  | l :: ls => l ++ '\n' :: joinLines ls

/-! ## Lemmas: the polling loop -/

theorem toSQLSMALLINT_succ (k : Nat) :
    toSQLSMALLINT (toSQLSMALLINT (k : Int) + 1) = toSQLSMALLINT ((k + 1 : Nat) : Int) := by
  show (((((k : Int) + 32768) % 65536 - 32768 + 1 + 32768) % 65536 - 32768 : Int)
    = ((((k + 1 : Nat) : Int) + 32768) % 65536 - 32768 : Int))
  omega

theorem GetErrors.loop_spec (SQLGetDiagRec : DiagRecFn) (handle : SQLHANDLE) (type : Int) :
    ∀ (n start fuel : Nat) (acc : List ODBCError),
      (∀ k : Nat, start ≤ k → k < start + n →
        SQL_SUCCEEDED (SQLGetDiagRec (toSQLSMALLINT type) handle (toSQLSMALLINT k)).rc = true) →
      SQL_SUCCEEDED
        (SQLGetDiagRec (toSQLSMALLINT type) handle (toSQLSMALLINT ((start + n : Nat) : Int))).rc
          = false →
      n < fuel →
      GetErrors.loop SQLGetDiagRec handle type fuel (toSQLSMALLINT start) acc
        = some (acc ++ (List.range' start n).map (reportedRecord SQLGetDiagRec handle type)) := by
  intro n
  induction n with
  | zero =>
    intro start fuel acc _ hstop hfuel
    obtain ⟨f, rfl⟩ : ∃ f, fuel = f + 1 := ⟨fuel - 1, by omega⟩
    simp only [Nat.add_zero] at hstop
    simp [GetErrors.loop, hstop]
  | succ n ih =>
    intro start fuel acc hsucc hstop hfuel
    obtain ⟨f, rfl⟩ : ∃ f, fuel = f + 1 := ⟨fuel - 1, by omega⟩
    have h1 := hsucc start (le_refl _) (by omega)
    have hstop2 : SQL_SUCCEEDED (SQLGetDiagRec (toSQLSMALLINT type) handle
        (toSQLSMALLINT (((start + 1) + n : Nat) : Int))).rc = false := by
      have : start + 1 + n = start + (n + 1) := by omega
      rw [this]; exact hstop
    have hrec := ih (start + 1) f (acc ++ [reportedRecord SQLGetDiagRec handle type start])
      (fun k hk1 hk2 => hsucc k (by omega) (by omega)) hstop2 (by omega)
    simp only [GetErrors.loop, h1, if_true, toSQLSMALLINT_succ]
    rw [show (SQLGetDiagRec (toSQLSMALLINT type) handle (toSQLSMALLINT (start : Int))).toError
      = reportedRecord SQLGetDiagRec handle type start from rfl, hrec]
    simp [List.range'_succ]

/-! ## Lemmas: the handle -/

theorem allocate_release_step {σ : Type} (drv : Driver σ)
    (halloc : ∀ s type conn, SQL_SUCCEEDED (drv.SQLAllocHandle s type conn).1 = true ∧
      (drv.SQLAllocHandle s type conn).2.1 ≠ NULL)
    (hfree : ∀ s type h, SQL_SUCCEEDED (drv.SQLFreeHandle s type h).1 = true)
    (fuel : Nat) (self : ODBCHandle) (w : World σ) (hself : self._handle = NULL)
    (K : SQLSMALLINT) (P : SQLHANDLE) :
    ∃ a r, ODBCHandle.Allocate drv fuel self w K P = some a ∧ a.result = .ok () ∧
      ODBCHandle.Release drv fuel a.self a.world = some r ∧ r.result = .ok () ∧
      r.self._handle = NULL := by
  obtain ⟨hs, hn⟩ := halloc w.state K P
  have ha : ODBCHandle.Allocate drv fuel self w K P
      = some { result := .ok (),
               self := { _type := K, _hconn := P, _handle := (drv.SQLAllocHandle w.state K P).2.1 },
               world := { state := (drv.SQLAllocHandle w.state K P).2.2,
                          calls := w.calls ++ [.allocHandle K P] } } := by
    simp [ODBCHandle.Allocate, hself, hs]
  have hr : ODBCHandle.Release drv fuel
        { _type := K, _hconn := P, _handle := (drv.SQLAllocHandle w.state K P).2.1 }
        { state := (drv.SQLAllocHandle w.state K P).2.2, calls := w.calls ++ [.allocHandle K P] }
      = some { result := .ok (),
               self := { _type := K, _hconn := P, _handle := NULL },
               world := { state := (drv.SQLFreeHandle (drv.SQLAllocHandle w.state K P).2.2 K
                            (drv.SQLAllocHandle w.state K P).2.1).2,
                          calls := w.calls ++ [.allocHandle K P]
                            ++ [.freeHandle K (drv.SQLAllocHandle w.state K P).2.1] } } := by
    simp [ODBCHandle.Release, hn, hfree]
  exact ⟨_, _, ha, rfl, hr, rfl, rfl⟩

theorem GetErrors_no_record (fuel : Nat) (SQLGetDiagRec : DiagRecFn) (handle : SQLHANDLE)
    (type : Int) (hsrc : HasRecords SQLGetDiagRec handle type 0) (hfuel : 0 < fuel) :
    GetErrors fuel SQLGetDiagRec handle type
      = some (.error (.NoDiagnosticsError handle type)) := by
  obtain ⟨f, rfl⟩ : ∃ f, fuel = f + 1 := ⟨fuel - 1, by omega⟩
  have h1 : toSQLSMALLINT ((0 + 1 : Nat) : Int) = 1 := by decide
  have hstop := hsrc.2
  rw [h1] at hstop
  simp [GetErrors, GetErrors.loop, hstop]

/-! ## Lemmas: the report -/

theorem GetError.loop_pos (errors : List ODBCError) :
    ∀ (i : Nat) (error_s : wstring), 0 < i →
      GetError.loop errors i error_s
        = error_s ++ (errors.map (fun e => '\n' :: errorLine e)).flatten := by
  induction errors with
  | nil => intro i error_s _; simp [GetError.loop]
  | cons e rest ih =>
    intro i error_s hi
    simp only [GetError.loop, hi, if_true]
    rw [ih (i + 1) _ (Nat.succ_pos i)]
    simp [errorLine, List.append_assoc]

theorem joinLines_cons (l : wstring) (ls : List wstring) :
    joinLines (l :: ls) = l ++ (ls.map (fun x => '\n' :: x)).flatten := by
  induction ls generalizing l with
  | nil => simp [joinLines]
  | cons l' ls ih => simp [joinLines, ih]

theorem GetError.loop_eq_joinLines (errors : List ODBCError) :
    GetError.loop errors 0 [] = joinLines (errors.map errorLine) := by
  cases errors with
  | nil => rfl
  | cons e rest =>
    simp only [GetError.loop, List.map_cons, joinLines_cons]
    rw [GetError.loop_pos rest 1 _ Nat.one_pos]
    simp [errorLine, List.append_assoc, List.map_map, Function.comp_def]

theorem GetErrors_ok_ne_nil {fuel : Nat} {SQLGetDiagRec : DiagRecFn} {handle : SQLHANDLE}
    {type : Int} {errors : List ODBCError}
    (h : GetErrors fuel SQLGetDiagRec handle type = some (.ok errors)) : errors ≠ [] := by
  unfold GetErrors at h
  split at h
  · cases h
  · split at h
    · rename_i hne
      injection h with h
      injection h with h
      subst h
      intro hnil
      simp [hnil] at hne
    · injection h with h
      cases h

theorem GetError_of_records (fuel : Nat) (SQLGetDiagRec : DiagRecFn) (handle : SQLHANDLE)
    (type : Int) (N : Nat) (hsrc : HasRecords SQLGetDiagRec handle type N) (hfuel : N < fuel) :
    GetError fuel SQLGetDiagRec handle type
      = if N = 0 then some (.error (.NoDiagnosticsError handle type))
        else some (.ok (joinLines
          (((List.range' 1 N).map (reportedRecord SQLGetDiagRec handle type)).map errorLine))) := by
  by_cases hN : N = 0
  · subst hN
    simp [GetError, GetErrors_no_record fuel SQLGetDiagRec handle type hsrc hfuel]
  · obtain ⟨hsucc, hstop⟩ := hsrc
    have hloop := GetErrors.loop_spec SQLGetDiagRec handle type N 1 fuel []
      (fun k hk1 hk2 => hsucc k hk1 (by omega))
      (by rw [show 1 + N = N + 1 by omega]; exact hstop) hfuel
    have h1 : toSQLSMALLINT ((1 : Nat) : Int) = 1 := by decide
    rw [h1] at hloop
    obtain ⟨m, rfl⟩ : ∃ m, N = m + 1 := ⟨N - 1, by omega⟩
    simp [GetError, GetErrors, hloop, List.range'_succ, GetError.loop_eq_joinLines]

/-! ## Lemmas: the matcher on well-formed messages -/

theorem run_seq (a b : Regex) (x : MatchState) (k : MatchCont) :
    (Regex.seq a b).run x k = a.run x (fun y => b.run y k) := rfl

theorem run_char_cons (c : Char) (rest : wstring) (caps : List (Option wstring))
    (k : MatchCont) :
    (Regex.char c).run { rest := c :: rest, captures := caps } k
      = k { rest := rest, captures := caps } := by
  simp [Regex.run]

theorem run_char_ne (c ch : Char) (rest : wstring) (caps : List (Option wstring))
    (k : MatchCont) (h : ch ≠ c) :
    (Regex.char c).run { rest := ch :: rest, captures := caps } k = none := by
  simp [Regex.run, h]

theorem run_char_nil (c : Char) (caps : List (Option wstring)) (k : MatchCont) :
    (Regex.char c).run { rest := [], captures := caps } k = none := by
  simp [Regex.run]

theorem run_any_cons (ch : Char) (rest : wstring) (caps : List (Option wstring))
    (k : MatchCont) :
    Regex.any.run { rest := ch :: rest, captures := caps } k
      = if isLineTerminator ch then none else k { rest := rest, captures := caps } := by
  simp [Regex.run]

theorem run_any_nil (caps : List (Option wstring)) (k : MatchCont) :
    Regex.any.run { rest := [], captures := caps } k = none := by
  simp [Regex.run]

theorem take_consumed (v tail : wstring) :
    (v ++ tail).take ((v ++ tail).length - tail.length) = v := by
  simp

/-- `\s*` in front of a character that is no space, or at the end of the input,
matches the empty string only. -/
theorem run_star_space_stop (rest : wstring) (caps : List (Option wstring)) (k : MatchCont)
    (h : ∀ ch ∈ rest.head?, isSpace ch = false) :
    (Regex.star true .space).run { rest := rest, captures := caps } k
      = k { rest := rest, captures := caps } := by
  cases rest with
  | nil => simp [Regex.run, repeatMatcher]
  | cons ch t =>
    have hch : isSpace ch = false := h ch (by simp)
    simp [Regex.run, repeatMatcher, Regex.groups, MatchState.clear, hch]

/-- The lazy `.*?` walks over `v` as long as the continuation rejects every state
that starts inside `v`. -/
theorem repeat_lazy_any (k : MatchCont) (z : List (Option wstring)) (tail : wstring)
    (caps : List (Option wstring)) :
    ∀ (v : wstring) (fuel : Nat),
      (∀ ch ∈ v, isLineTerminator ch = false) →
      (∀ ch ∈ v, ∀ r cp, k { rest := ch :: r, captures := cp } = none) →
      v.length ≤ fuel →
      k { rest := tail, captures := caps } = some z →
      repeatMatcher (fun y c => Regex.any.run y c) [] false fuel
        { rest := v ++ tail, captures := caps } k = some z := by
  intro v
  induction v with
  | nil =>
    intro fuel _ _ _ hk
    cases fuel with
    | zero => simpa [repeatMatcher] using hk
    | succ f => simp [repeatMatcher, hk]
  | cons ch v ih =>
    intro fuel hlt hrej hfuel hk
    obtain ⟨f, rfl⟩ : ∃ f, fuel = f + 1 := ⟨fuel - 1, by simp at hfuel; omega⟩
    have h1 : k { rest := ch :: (v ++ tail), captures := caps } = none :=
      hrej ch (by simp) _ _
    have h2 : isLineTerminator ch = false := hlt ch (by simp)
    have h3 := ih f (fun c hc => hlt c (by simp [hc])) (fun c hc => hrej c (by simp [hc]))
      (by simp at hfuel; omega) hk
    simp [repeatMatcher, h1, MatchState.clear, run_any_cons, h2, h3]

/-- The greedy `.*` takes a rest without line terminator whole. -/
theorem repeat_greedy_any (k : MatchCont) (z : List (Option wstring))
    (caps : List (Option wstring)) :
    ∀ (t : wstring) (fuel : Nat),
      (∀ ch ∈ t, isLineTerminator ch = false) →
      t.length ≤ fuel →
      k { rest := [], captures := caps } = some z →
      repeatMatcher (fun y c => Regex.any.run y c) [] true fuel
        { rest := t, captures := caps } k = some z := by
  intro t
  induction t with
  | nil =>
    intro fuel _ _ hk
    cases fuel with
    | zero => simpa [repeatMatcher] using hk
    | succ f => simp [repeatMatcher, MatchState.clear, run_any_nil, hk]
  | cons ch t ih =>
    intro fuel hlt hfuel hk
    obtain ⟨f, rfl⟩ : ∃ f, fuel = f + 1 := ⟨fuel - 1, by simp at hfuel; omega⟩
    have h2 : isLineTerminator ch = false := hlt ch (by simp)
    have h3 := ih f (fun c hc => hlt c (by simp [hc])) (by simp at hfuel; omega) hk
    simp [repeatMatcher, MatchState.clear, run_any_cons, h2, h3]

/-- A captured `(.*?)` followed by `\]`, on `v]tail` with `v` free of `]` and of line
terminators: the group captures `v`. -/
theorem run_group_lazy_bracket (n : Nat) (v tail : wstring) (caps : List (Option wstring))
    (k : MatchCont) (z : List (Option wstring))
    (hv : ∀ ch ∈ v, ch ≠ ']' ∧ isLineTerminator ch = false)
    (hk : k { rest := tail, captures := caps.set n (some v) } = some z) :
    (Regex.group n (.star false .any)).run { rest := v ++ ']' :: tail, captures := caps }
      (fun y => (Regex.char ']').run y k) = some z := by
  simp only [Regex.run, Regex.groups]
  apply repeat_lazy_any _ z (']' :: tail) caps v _ (fun ch hc => (hv ch hc).2)
  · intro ch hc r cp
    simp [(hv ch hc).1]
  · simp
  · have := take_consumed v (']' :: tail)
    simp only [List.length_append, List.length_cons] at this
    simp [this, hk]

/-- A bracketed segment `\[(.*?)\]` in front of a pattern `r`. -/
theorem run_segment (n : Nat) (v tail : wstring) (caps : List (Option wstring)) (r : Regex)
    (k : MatchCont) (z : List (Option wstring))
    (hv : ∀ ch ∈ v, ch ≠ ']' ∧ isLineTerminator ch = false)
    (hk : r.run { rest := tail, captures := caps.set n (some v) } k = some z) :
    (Regex.seq (.char '[') (.seq (.group n (.star false .any)) (.seq (.char ']') r))).run
      { rest := '[' :: (v ++ ']' :: tail), captures := caps } k = some z := by
  rw [run_seq, run_char_cons, run_seq]
  exact run_group_lazy_bracket n v tail caps (fun y => r.run y k) z hv hk

/-- The final `(.*)` at a rest without line terminator. -/
theorem run_group_greedy_rest (n : Nat) (t : wstring) (caps : List (Option wstring)) :
    (∀ ch ∈ t, isLineTerminator ch = false) →
    (Regex.group n (.star true .any)).run { rest := t, captures := caps }
      (fun y => if y.rest.isEmpty then some y.captures else none)
      = some (caps.set n (some t)) := by
  intro ht
  simp only [Regex.run, Regex.groups]
  apply repeat_greedy_any _ _ caps t _ ht (le_refl _)
  simp

theorem MatchState.clear_rest (ns : List Nat) : ∀ x : MatchState, (x.clear ns).rest = x.rest := by
  induction ns with
  | nil => intro x; rfl
  | cons n ns ih => intro x; simp [MatchState.clear, ih]

theorem run_char_head_ne (c : Char) (x : MatchState) (k : MatchCont)
    (h : ∀ ch ∈ x.rest.head?, ch ≠ c) : (Regex.char c).run x k = none := by
  obtain ⟨rest, caps⟩ := x
  cases rest with
  | nil => exact run_char_nil c caps k
  | cons ch t => exact run_char_ne c ch t caps k (h ch (by simp))

/-- The optional `(\[(.*?)\])?` at a bracketed segment: both groups capture. -/
theorem run_opt_segment (n m : Nat) (d t : wstring) (caps : List (Option wstring))
    (k : MatchCont) (z : List (Option wstring))
    (hd : ∀ ch ∈ d, ch ≠ ']' ∧ isLineTerminator ch = false)
    (hk : k { rest := t,
              captures := ((((caps.set n none).set m none).set m (some d)).set n
                (some ('[' :: (d ++ [']'])))) } = some z) :
    (Regex.opt (.group n (.seq (.char '[') (.seq (.group m (.star false .any)) (.char ']'))))).run
      { rest := '[' :: (d ++ ']' :: t), captures := caps } k = some z := by
  have htake : ('[' :: (d ++ ']' :: t)).take (('[' :: (d ++ ']' :: t)).length - t.length)
      = '[' :: (d ++ [']']) := by
    have := take_consumed ('[' :: (d ++ [']'])) t
    simpa using this
  have hlen : t.length < ('[' :: (d ++ ']' :: t)).length := by
    simp only [List.length_cons, List.length_append]
    omega
  have hinner : (Regex.group n (.seq (.char '[') (.seq (.group m (.star false .any)) (.char ']')))).run
      { rest := '[' :: (d ++ ']' :: t), captures := (caps.set n none).set m none }
      (fun y => if y.rest.length < ('[' :: (d ++ ']' :: t)).length then k y else none)
      = some z := by
    rw [Regex.run, run_seq, run_char_cons, run_seq]
    apply run_group_lazy_bracket m d t _ _ z hd
    dsimp only
    rw [if_pos hlen, htake]
    exact hk
  show (match (Regex.group n (.seq (.char '[') (.seq (.group m (.star false .any))
        (.char ']')))).run
      { rest := '[' :: (d ++ ']' :: t), captures := (caps.set n none).set m none }
      (fun y => if y.rest.length < ('[' :: (d ++ ']' :: t)).length then k y else none) with
    | some z => some z
    | none => k { rest := '[' :: (d ++ ']' :: t), captures := caps }) = some z
  rw [hinner]

/-- The optional `(\[(.*?)\])?` in front of anything but `[`: the group is skipped
and the captures stay as they were. -/
theorem run_opt_skip (n : Nat) (r : Regex) (x : MatchState) (k : MatchCont)
    (ht : ∀ ch ∈ x.rest.head?, ch ≠ '[') :
    (Regex.opt (.group n (.seq (.char '[') r))).run x k = k x := by
  have hinner : ∀ k', (Regex.group n (.seq (.char '[') r)).run
      (x.clear (Regex.group n (.seq (.char '[') r)).groups) k' = none := by
    intro k'
    rw [Regex.run, run_seq]
    apply run_char_head_ne
    rw [MatchState.clear_rest]
    exact ht
  show (match (Regex.group n (.seq (.char '[') r)).run
      (x.clear (Regex.group n (.seq (.char '[') r)).groups)
      (fun y => if y.rest.length < x.rest.length then k y else none) with
    | some z => some z
    | none => k x) = k x
  rw [hinner]

/-! ## Lemmas: what a successful match says about the input -/

theorem repeatMatcher_sound (r : Regex) (g : Bool) (parens : List Nat) (k : MatchCont)
    (ih : ∀ (x : MatchState) (k : MatchCont) (z : List (Option wstring)),
      r.run x k = some z → ∃ u y, Regex.Matches r u ∧ x.rest = u ++ y.rest ∧ k y = some z) :
    ∀ (fuel : Nat) (x : MatchState) (z : List (Option wstring)),
      repeatMatcher (fun y c => r.run y c) parens g fuel x k = some z →
      ∃ u y, Regex.Matches (.star g r) u ∧ x.rest = u ++ y.rest ∧ k y = some z := by
  intro fuel
  induction fuel with
  | zero =>
    intro x z h
    exact ⟨[], x, .starNil, rfl, by simpa [repeatMatcher] using h⟩
  | succ f ihf =>
    intro x z h
    have hiter : ∀ z', r.run (x.clear parens)
        (fun y => if y.rest.length < x.rest.length
          then repeatMatcher (fun y c => r.run y c) parens g f y k else none) = some z' →
        ∃ u y, Regex.Matches (.star g r) u ∧ x.rest = u ++ y.rest ∧ k y = some z' := by
      intro z' hz'
      obtain ⟨u, y, hu, hrest, hd⟩ := ih _ _ _ hz'
      by_cases hlen : y.rest.length < x.rest.length
      · rw [if_pos hlen] at hd
        obtain ⟨w, y', hw, hrest', hk⟩ := ihf y _ hd
        refine ⟨u ++ w, y', .starCons hu hw, ?_, hk⟩
        rw [MatchState.clear_rest] at hrest
        rw [hrest, hrest', List.append_assoc]
      · rw [if_neg hlen] at hd
        cases hd
    cases g with
    | true =>
      simp only [repeatMatcher, if_true] at h
      split at h
      · rename_i z' hz'
        cases h
        exact hiter _ hz'
      · exact ⟨[], x, .starNil, rfl, h⟩
    | false =>
      simp only [repeatMatcher, Bool.false_eq_true, if_false] at h
      split at h
      · rename_i z' hz'
        cases h
        exact ⟨[], x, .starNil, rfl, hz'⟩
      · exact hiter _ h

theorem Regex.run_sound : ∀ (r : Regex) (x : MatchState) (k : MatchCont)
    (z : List (Option wstring)),
    r.run x k = some z → ∃ u y, Regex.Matches r u ∧ x.rest = u ++ y.rest ∧ k y = some z := by
  intro r
  induction r with
  | char c =>
    intro x k z h
    obtain ⟨rest, caps⟩ := x
    cases rest with
    | nil => simp [Regex.run] at h
    | cons ch t =>
      by_cases hc : ch = c
      · subst hc
        rw [run_char_cons] at h
        exact ⟨[ch], { rest := t, captures := caps }, .char ch, rfl, h⟩
      · rw [run_char_ne _ _ _ _ _ hc] at h
        cases h
  | any =>
    intro x k z h
    obtain ⟨rest, caps⟩ := x
    cases rest with
    | nil => simp [Regex.run] at h
    | cons ch t =>
      rw [run_any_cons] at h
      by_cases hc : isLineTerminator ch = true
      · simp [hc] at h
      · simp only [hc, Bool.false_eq_true, if_false] at h
        exact ⟨[ch], { rest := t, captures := caps }, .any ch (by simpa using hc), rfl, h⟩
  | space =>
    intro x k z h
    obtain ⟨rest, caps⟩ := x
    cases rest with
    | nil => simp [Regex.run] at h
    | cons ch t =>
      by_cases hc : isSpace ch = true
      · simp only [Regex.run, hc, if_true] at h
        exact ⟨[ch], { rest := t, captures := caps }, .space ch hc, rfl, h⟩
      · simp [Regex.run, hc] at h
  | seq r₁ r₂ ih₁ ih₂ =>
    intro x k z h
    rw [run_seq] at h
    obtain ⟨u, y, hu, hrest, hk⟩ := ih₁ _ _ _ h
    obtain ⟨w, y', hw, hrest', hk'⟩ := ih₂ _ _ _ hk
    exact ⟨u ++ w, y', .seq hu hw, by rw [hrest, hrest', List.append_assoc], hk'⟩
  | star g r ih =>
    intro x k z h
    rw [Regex.run] at h
    exact repeatMatcher_sound r g _ k ih _ x z h
  | opt r ih =>
    intro x k z h
    rw [Regex.run] at h
    split at h
    · rename_i z' hz'
      cases h
      obtain ⟨u, y, hu, hrest, hd⟩ := ih _ _ _ hz'
      by_cases hlen : y.rest.length < x.rest.length
      · rw [if_pos hlen] at hd
        rw [MatchState.clear_rest] at hrest
        exact ⟨u, y, .optSome hu, hrest, hd⟩
      · rw [if_neg hlen] at hd
        cases hd
    · exact ⟨[], x, .optNone, rfl, h⟩
  | group n r ih =>
    intro x k z h
    rw [Regex.run] at h
    obtain ⟨u, y, hu, hrest, hk⟩ := ih _ _ _ h
    exact ⟨u, MatchState.mk y.rest
      (y.captures.set n (some (x.rest.take (x.rest.length - y.rest.length)))),
      .group hu, hrest, hk⟩

theorem Regex.Matches.seq_inv {a b : Regex} {s : wstring} (h : Regex.Matches (.seq a b) s) :
    ∃ u w, s = u ++ w ∧ Regex.Matches a u ∧ Regex.Matches b w := by
  cases h with
  | seq h₁ h₂ => exact ⟨_, _, rfl, h₁, h₂⟩

theorem Regex.Matches.char_inv {c : Char} {s : wstring} (h : Regex.Matches (.char c) s) :
    s = [c] := by
  cases h
  rfl

theorem Regex.Matches.star_space {g : Bool} {s : wstring}
    (h : Regex.Matches (.star g .space) s) : ∀ ch ∈ s, isSpace ch = true := by
  generalize hr : Regex.star g Regex.space = r at h
  induction h with
  | starNil => intro ch hch; simp at hch
  | starCons h₁ _ _ ih₂ =>
    injection hr with hg hr'
    subst hr'
    cases h₁ with
    | space c hc =>
      intro ch hch
      simp only [List.singleton_append, List.mem_cons] at hch
      rcases hch with rfl | hch
      · exact hc
      · exact ih₂ (by rw [hg]) ch hch
  | _ => cases hr

/-- What the pattern accepts starts, after whitespace, with two bracketed segments. -/
theorem diag_message_regex_shape {s : wstring} (h : Regex.Matches diag_message_regex s) :
    StartsWithTwoSegments s := by
  unfold diag_message_regex at h
  obtain ⟨w₁, s₁, rfl, hw₁, h⟩ := h.seq_inv
  obtain ⟨b₁, s₂, rfl, hb₁, h⟩ := h.seq_inv
  obtain ⟨v, s₃, rfl, _, h⟩ := h.seq_inv
  obtain ⟨e₁, s₄, rfl, he₁, h⟩ := h.seq_inv
  obtain ⟨w₂, s₅, rfl, hw₂, h⟩ := h.seq_inv
  obtain ⟨b₂, s₆, rfl, hb₂, h⟩ := h.seq_inv
  obtain ⟨c, s₇, rfl, _, h⟩ := h.seq_inv
  obtain ⟨e₂, rest, rfl, he₂, _⟩ := h.seq_inv
  rw [hb₁.char_inv, he₁.char_inv, hb₂.char_inv, he₂.char_inv]
  exact ⟨w₁, v, w₂, c, rest, hw₁.star_space, hw₂.star_space, by simp [bracketed]⟩

/-- A successful `regex_match` against `diag_message_regex` has six sub-matches and
an input of the accepted shape; a failed one has none. -/
theorem regex_match_diag_size (s : wstring) :
    (regex_match s diag_message_regex).size = 6 → StartsWithTwoSegments s := by
  intro hsize
  unfold regex_match at hsize
  split at hsize
  · rename_i caps hrun
    obtain ⟨u, y, hu, hrest, hk⟩ := Regex.run_sound _ _ _ _ hrun
    have hy : y.rest = [] := by
      by_cases hy : y.rest.isEmpty = true
      · simpa using hy
      · simp [hy] at hk
    simp only [hy, List.append_nil] at hrest
    subst hrest
    exact diag_message_regex_shape hu
  · simp [match_results.size] at hsize

theorem StartsWithTwoSegments.count_close {s : wstring} (h : StartsWithTwoSegments s) :
    2 ≤ s.count ']' := by
  obtain ⟨w₁, v, w₂, c, rest, _, _, rfl⟩ := h
  simp only [bracketed, List.count_append, List.count_cons, List.count_nil]
  simp
  omega

/-! ## Lemmas: the field loop -/

theorem GetDiagFields.field_loop_spec (SQLGetDiagField : DiagFieldFn) (handle : SQLHANDLE)
    (type diagidentifier : Int) :
    ∀ (n start fuel : Nat) (acc : List wstring),
      (∀ k : Nat, start ≤ k → k < start + n →
        SQL_SUCCEEDED (SQLGetDiagField (toSQLSMALLINT type) handle (toSQLSMALLINT k)
          (toSQLSMALLINT diagidentifier) (toSQLSMALLINT SQL_MAX_MESSAGE_LENGTH)).rc = true) →
      SQL_SUCCEEDED (SQLGetDiagField (toSQLSMALLINT type) handle
        (toSQLSMALLINT ((start + n : Nat) : Int)) (toSQLSMALLINT diagidentifier)
        (toSQLSMALLINT SQL_MAX_MESSAGE_LENGTH)).rc = false →
      n < fuel →
      GetDiagFields.loop SQLGetDiagField handle type diagidentifier fuel (toSQLSMALLINT start) acc
        = some (acc ++ (List.range' start n).map
            (reportedField SQLGetDiagField handle type diagidentifier)) := by
  intro n
  induction n with
  | zero =>
    intro start fuel acc _ hstop hfuel
    obtain ⟨f, rfl⟩ : ∃ f, fuel = f + 1 := ⟨fuel - 1, by omega⟩
    simp only [Nat.add_zero] at hstop
    simp [GetDiagFields.loop, hstop]
  | succ n ih =>
    intro start fuel acc hsucc hstop hfuel
    obtain ⟨f, rfl⟩ : ∃ f, fuel = f + 1 := ⟨fuel - 1, by omega⟩
    have h1 := hsucc start (le_refl _) (by omega)
    have hstop2 : SQL_SUCCEEDED (SQLGetDiagField (toSQLSMALLINT type) handle
        (toSQLSMALLINT (((start + 1) + n : Nat) : Int)) (toSQLSMALLINT diagidentifier)
        (toSQLSMALLINT SQL_MAX_MESSAGE_LENGTH)).rc = false := by
      have : start + 1 + n = start + (n + 1) := by omega
      rw [this]; exact hstop
    have hrec := ih (start + 1) f
      (acc ++ [reportedField SQLGetDiagField handle type diagidentifier start])
      (fun k hk1 hk2 => hsucc k (by omega) (by omega)) hstop2 (by omega)
    simp only [GetDiagFields.loop, h1, if_true, toSQLSMALLINT_succ]
    rw [show (SQLGetDiagField (toSQLSMALLINT type) handle (toSQLSMALLINT (start : Int))
        (toSQLSMALLINT diagidentifier) (toSQLSMALLINT SQL_MAX_MESSAGE_LENGTH)).sql_message
      = reportedField SQLGetDiagField handle type diagidentifier start from rfl, hrec]
    simp [List.range'_succ]

theorem GetDiagFields_no_field (fuel : Nat) (SQLGetDiagField : DiagFieldFn)
    (handle : SQLHANDLE) (type diagidentifier : Int)
    (hsrc : HasFields SQLGetDiagField handle type diagidentifier 0) (hfuel : 0 < fuel) :
    GetDiagFields fuel SQLGetDiagField handle type diagidentifier
      = some (.error (.NoDiagnosticsError handle diagidentifier)) := by
  obtain ⟨f, rfl⟩ : ∃ f, fuel = f + 1 := ⟨fuel - 1, by omega⟩
  have h1 : toSQLSMALLINT ((0 + 1 : Nat) : Int) = 1 := by decide
  have hstop := hsrc.2
  rw [h1] at hstop
  simp [GetDiagFields, GetDiagFields.loop, hstop]

/-! ## Lemmas: failure of `Release` -/

theorem Release_outcome {σ : Type} (drv : Driver σ) (fuel : Nat)
    (self : ODBCHandle) (w : World σ) (o : Outcome σ)
    (h : ODBCHandle.Release drv fuel self w = some o) :
    (o.result = .ok () ∧ o.self._handle = NULL) ∨ (o.result ≠ .ok () ∧ o.self = self) := by
  unfold ODBCHandle.Release at h
  dsimp only at h
  split at h
  · split at h
    · injection h with h
      subst h
      exact Or.inl ⟨rfl, rfl⟩
    · split at h
      · cases h
      · injection h with h
        subst h
        exact Or.inr ⟨(by intro hc; cases hc), rfl⟩
      · injection h with h
        subst h
        exact Or.inr ⟨(by intro hc; cases hc), rfl⟩
  · injection h with h
    subst h
    exact Or.inr ⟨(by intro hc; cases hc), rfl⟩

theorem Release_failure_keeps_members {σ : Type} (drv : Driver σ) (fuel : Nat)
    (self : ODBCHandle) (w : World σ) (o : Outcome σ)
    (h : ODBCHandle.Release drv fuel self w = some o) (hfail : o.result ≠ .ok ()) :
    o.self = self := by
  rcases Release_outcome drv fuel self w o h with ⟨hok, _⟩ | ⟨_, hself⟩
  · exact absurd hok hfail
  · exact hself

theorem Release_refused {σ : Type} (drv : Driver σ) (fuel : Nat) (self : ODBCHandle)
    (w : World σ) (hself : self._handle ≠ NULL)
    (hrc : SQL_SUCCEEDED (drv.SQLFreeHandle w.state self._type self._handle).1 = false)
    (N : Nat)
    (hsrc : HasRecords (drv.SQLGetDiagRec (drv.SQLFreeHandle w.state self._type self._handle).2)
      self._hconn SQL_HANDLE_DBC N)
    (hfuel : N < fuel) :
    ODBCHandle.Release drv fuel self w
      = some { result := .error
                 (if N = 0 then .NoDiagnosticsError self._hconn SQL_HANDLE_DBC
                  else .ReleaseError ("Error releasing handle. ".toList ++ joinLines
                    (((List.range' 1 N).map
                      (reportedRecord
                        (drv.SQLGetDiagRec (drv.SQLFreeHandle w.state self._type self._handle).2)
                        self._hconn SQL_HANDLE_DBC)).map errorLine))),
               self := self,
               world := { state := (drv.SQLFreeHandle w.state self._type self._handle).2,
                          calls := w.calls ++ [.freeHandle self._type self._handle] } } := by
  have hge := GetError_of_records fuel _ _ _ N hsrc hfuel
  by_cases hN : N = 0
  · simp only [hN, if_true] at hge ⊢
    simp [ODBCHandle.Release, hself, hrc, hge]
  · simp only [hN, if_false] at hge ⊢
    simp [ODBCHandle.Release, hself, hrc, hge]

/-! ## Lemmas: the message loop -/

theorem GetDiagMessages.parse_error (s : wstring) (e : ODBCException)
    (h : GetDiagMessages.parse s = .error e) : e = .InvalidMessageFormatError := by
  unfold GetDiagMessages.parse at h
  dsimp only at h
  split at h
  · cases h
  · injection h with h
    exact h.symm

theorem SQL_SUCCEEDED_false_ne_success (rc : SQLRETURN) (h : SQL_SUCCEEDED rc = false) :
    rc ≠ SQL_SUCCESS := by
  intro hrc
  subst hrc
  simp [SQL_SUCCEEDED] at h

/-- How the loop of `GetDiagMessages` can end: with the exception of line 101, after
a fetch that succeeded and whose text does not parse, or with a return code other
than `SQL_SUCCESS` that some fetch answered. -/
theorem GetDiagMessages.loop_exit (SQLGetDiagField : DiagFieldFn) (handle : SQLHANDLE)
    (type : Int) :
    ∀ (fuel : Nat) (i : SQLSMALLINT) (size : Nat) (messages : List ODBCDiagnosticsMessage)
      (res : Except ODBCException (SQLRETURN × SQLSMALLINT × List ODBCDiagnosticsMessage)),
      GetDiagMessages.loop SQLGetDiagField handle type fuel i size messages = some res →
      (∀ e, res = .error e → e = .InvalidMessageFormatError ∧ ∃ (j : SQLSMALLINT) (sz : Nat),
        SQL_SUCCEEDED (SQLGetDiagField (toSQLSMALLINT type) handle j SQL_DIAG_MESSAGE_TEXT
          (toSQLSMALLINT sz)).rc = true ∧
        GetDiagMessages.parse (SQLGetDiagField (toSQLSMALLINT type) handle j
          SQL_DIAG_MESSAGE_TEXT (toSQLSMALLINT sz)).sql_message
            = .error .InvalidMessageFormatError) ∧
      (∀ rc j ms, res = .ok (rc, j, ms) → rc ≠ SQL_SUCCESS ∧ ∃ sz : Nat,
        rc = (SQLGetDiagField (toSQLSMALLINT type) handle j SQL_DIAG_MESSAGE_TEXT
          (toSQLSMALLINT sz)).rc) := by
  intro fuel
  induction fuel with
  | zero =>
    intro i size messages res h
    simp [GetDiagMessages.loop] at h
  | succ f ih =>
    intro i size messages res h
    unfold GetDiagMessages.loop at h
    dsimp only at h
    split at h
    · rename_i hsucc
      split at h
      · split at h
        · injection h with h
          subst h
          rename_i hrc
          refine ⟨fun e he => (by cases he), fun rc j ms hres => ?_⟩
          injection hres with hres
          injection hres with h1 h2
          injection h2 with h2 h3
          subst h1 h2
          exact ⟨hrc, _, rfl⟩
        · rename_i hrc
          have hrc' : (SQLGetDiagField (toSQLSMALLINT type) handle i SQL_DIAG_MESSAGE_TEXT
              (toSQLSMALLINT ((SQLGetDiagField (toSQLSMALLINT type) handle i
                SQL_DIAG_MESSAGE_TEXT (toSQLSMALLINT size)).sql_message_len + 2 : Nat))).rc
              = SQL_SUCCESS := by
            simpa using hrc
          split at h
          · rename_i e hparse
            injection h with h
            subst h
            have he := GetDiagMessages.parse_error _ _ hparse
            subst he
            refine ⟨fun e he => ?_, fun rc j ms hres => (by cases hres)⟩
            injection he with he
            subst he
            exact ⟨rfl, i, _, (by rw [hrc']; rfl), hparse⟩
          · exact ih _ _ _ _ h
      · split at h
        · rename_i e hparse
          injection h with h
          subst h
          have he := GetDiagMessages.parse_error _ _ hparse
          subst he
          refine ⟨fun e he => ?_, fun rc j ms hres => (by cases hres)⟩
          injection he with he
          subst he
          exact ⟨rfl, i, size, hsucc, hparse⟩
        · exact ih _ _ _ _ h
    · rename_i hsucc
      injection h with h
      subst h
      refine ⟨fun e he => (by cases he), fun rc j ms hres => ?_⟩
      injection hres with hres
      injection hres with h1 h2
      injection h2 with h2 h3
      subst h1 h2
      exact ⟨SQL_SUCCEEDED_false_ne_success _ (by simpa using hsucc), size, rfl⟩

/-! ## Lemmas: the captures of a successful match -/

theorem repeatMatcher_steps (r : Regex) (g : Bool) (k : MatchCont)
    (ih : ∀ (x : MatchState) (k : MatchCont) (z : List (Option wstring)),
      r.run x k = some z → ∃ y, Regex.Steps r x y ∧ k y = some z) :
    ∀ (fuel : Nat) (x : MatchState) (z : List (Option wstring)),
      repeatMatcher (fun y c => r.run y c) r.groups g fuel x k = some z →
      ∃ y, Regex.Steps (.star g r) x y ∧ k y = some z := by
  intro fuel
  induction fuel with
  | zero =>
    intro x z h
    exact ⟨x, .starNil, by simpa [repeatMatcher] using h⟩
  | succ f ihf =>
    intro x z h
    have hiter : ∀ z', r.run (x.clear r.groups)
        (fun y => if y.rest.length < x.rest.length
          then repeatMatcher (fun y c => r.run y c) r.groups g f y k else none) = some z' →
        ∃ y, Regex.Steps (.star g r) x y ∧ k y = some z' := by
      intro z' hz'
      obtain ⟨y, hy, hd⟩ := ih _ _ _ hz'
      by_cases hlen : y.rest.length < x.rest.length
      · rw [if_pos hlen] at hd
        obtain ⟨y', hy', hk⟩ := ihf y _ hd
        exact ⟨y', .starCons hy hlen hy', hk⟩
      · rw [if_neg hlen] at hd
        cases hd
    cases g with
    | true =>
      simp only [repeatMatcher, if_true] at h
      split at h
      · rename_i z' hz'
        cases h
        exact hiter _ hz'
      · exact ⟨x, .starNil, h⟩
    | false =>
      simp only [repeatMatcher, Bool.false_eq_true, if_false] at h
      split at h
      · rename_i z' hz'
        cases h
        exact ⟨x, .starNil, hz'⟩
      · exact hiter _ h

/-- Every result of the matcher comes from a state the pattern can reach. -/
theorem Regex.run_steps : ∀ (r : Regex) (x : MatchState) (k : MatchCont)
    (z : List (Option wstring)),
    r.run x k = some z → ∃ y, Regex.Steps r x y ∧ k y = some z := by
  intro r
  induction r with
  | char c =>
    intro x k z h
    obtain ⟨rest, caps⟩ := x
    cases rest with
    | nil => simp [Regex.run] at h
    | cons ch t =>
      by_cases hc : ch = c
      · subst hc
        rw [run_char_cons] at h
        exact ⟨_, .char ch t caps, h⟩
      · rw [run_char_ne _ _ _ _ _ hc] at h
        cases h
  | any =>
    intro x k z h
    obtain ⟨rest, caps⟩ := x
    cases rest with
    | nil => simp [Regex.run] at h
    | cons ch t =>
      rw [run_any_cons] at h
      by_cases hc : isLineTerminator ch = true
      · simp [hc] at h
      · simp only [hc, Bool.false_eq_true, if_false] at h
        exact ⟨_, .any ch t caps (by simpa using hc), h⟩
  | space =>
    intro x k z h
    obtain ⟨rest, caps⟩ := x
    cases rest with
    | nil => simp [Regex.run] at h
    | cons ch t =>
      by_cases hc : isSpace ch = true
      · simp only [Regex.run, hc, if_true] at h
        exact ⟨_, .space ch t caps hc, h⟩
      · simp [Regex.run, hc] at h
  | seq r₁ r₂ ih₁ ih₂ =>
    intro x k z h
    rw [run_seq] at h
    obtain ⟨y, hy, hk⟩ := ih₁ _ _ _ h
    obtain ⟨y', hy', hk'⟩ := ih₂ _ _ _ hk
    exact ⟨y', .seq hy hy', hk'⟩
  | star g r ih =>
    intro x k z h
    rw [Regex.run] at h
    exact repeatMatcher_steps r g k ih _ x z h
  | opt r ih =>
    intro x k z h
    rw [Regex.run] at h
    split at h
    · rename_i z' hz'
      cases h
      obtain ⟨y, hy, hd⟩ := ih _ _ _ hz'
      by_cases hlen : y.rest.length < x.rest.length
      · rw [if_pos hlen] at hd
        exact ⟨y, .optSome hy hlen, hd⟩
      · rw [if_neg hlen] at hd
        cases hd
    · exact ⟨x, .optNone, h⟩
  | group n r ih =>
    intro x k z h
    rw [Regex.run] at h
    obtain ⟨y, hy, hk⟩ := ih _ _ _ h
    exact ⟨_, .group hy, hk⟩

theorem run_seq_steps (a b : Regex) (x : MatchState) (k : MatchCont)
    (z : List (Option wstring)) (h : (Regex.seq a b).run x k = some z) :
    ∃ y, Regex.Steps a x y ∧ b.run y k = some z := by
  rw [run_seq] at h
  exact Regex.run_steps a x _ z h

theorem Regex.Steps.step_char_inv {c : Char} {x y : MatchState} (h : Regex.Steps (.char c) x y) :
    x.rest = c :: y.rest ∧ y.captures = x.captures := by
  cases h
  exact ⟨rfl, rfl⟩

theorem Regex.Steps.step_seq_inv {a b : Regex} {x z : MatchState} (h : Regex.Steps (.seq a b) x z) :
    ∃ y, Regex.Steps a x y ∧ Regex.Steps b y z := by
  cases h with
  | seq h₁ h₂ => exact ⟨_, h₁, h₂⟩

theorem Regex.Steps.space_inv {x y : MatchState} (h : Regex.Steps .space x y) :
    y.captures = x.captures ∧ ∃ c, isSpace c = true ∧ x.rest = c :: y.rest := by
  cases h with
  | space c t caps hc => exact ⟨rfl, c, hc, rfl⟩

theorem Regex.Steps.any_inv {x y : MatchState} (h : Regex.Steps .any x y) :
    y.captures = x.captures ∧ ∃ c, isLineTerminator c = false ∧ x.rest = c :: y.rest := by
  cases h with
  | any c t caps hc => exact ⟨rfl, c, hc, rfl⟩

theorem Regex.Steps.step_star_space {g : Bool} {x y : MatchState}
    (h : Regex.Steps (.star g .space) x y) :
    y.captures = x.captures ∧ ∃ u, x.rest = u ++ y.rest ∧ AllSpace u := by
  generalize hr : Regex.star g Regex.space = r at h
  induction h with
  | starNil => exact ⟨rfl, [], rfl, fun ch hch => by simp at hch⟩
  | @starCons g' r' x y z h₁ _ _ _ ih₂ =>
    injection hr with hg hr'
    subst hr'
    obtain ⟨hcaps, u, hrest, hu⟩ := ih₂ (by rw [hg])
    obtain ⟨hc1, c, hc, hr1⟩ :
        y.captures = x.captures ∧ ∃ c, isSpace c = true ∧ x.rest = c :: y.rest :=
      h₁.space_inv
    refine ⟨by rw [hcaps, hc1], c :: u, by rw [hr1, hrest]; rfl, ?_⟩
    intro ch hch
    simp only [List.mem_cons] at hch
    rcases hch with rfl | hch
    · exact hc
    · exact hu ch hch
  | _ => cases hr

theorem Regex.Steps.star_any {g : Bool} {x y : MatchState}
    (h : Regex.Steps (.star g .any) x y) :
    y.captures = x.captures ∧ ∃ u, x.rest = u ++ y.rest ∧ NoLineTerminator u := by
  generalize hr : Regex.star g Regex.any = r at h
  induction h with
  | starNil => exact ⟨rfl, [], rfl, fun ch hch => by simp at hch⟩
  | @starCons g' r' x y z h₁ _ _ _ ih₂ =>
    injection hr with hg hr'
    subst hr'
    obtain ⟨hcaps, u, hrest, hu⟩ := ih₂ (by rw [hg])
    obtain ⟨hc1, c, hc, hr1⟩ :
        y.captures = x.captures ∧ ∃ c, isLineTerminator c = false ∧ x.rest = c :: y.rest :=
      h₁.any_inv
    refine ⟨by rw [hcaps, hc1], c :: u, by rw [hr1, hrest]; rfl, ?_⟩
    intro ch hch
    simp only [List.mem_cons] at hch
    rcases hch with rfl | hch
    · exact hc
    · exact hu ch hch
  | _ => cases hr

theorem Regex.Steps.group_star_any {n : Nat} {g : Bool} {x y : MatchState}
    (h : Regex.Steps (.group n (.star g .any)) x y) :
    ∃ u, x.rest = u ++ y.rest ∧ NoLineTerminator u ∧ y.captures = x.captures.set n (some u) := by
  cases h with
  | group h' =>
    obtain ⟨hcaps, u, hrest, hu⟩ := h'.star_any
    refine ⟨u, hrest, hu, ?_⟩
    simp only
    rw [hcaps, hrest, take_consumed]

theorem Regex.Steps.opt_segment {n m : Nat} {x y : MatchState}
    (h : Regex.Steps
      (.opt (.group n (.seq (.char '[') (.seq (.group m (.star false .any)) (.char ']'))))) x y) :
    y = x ∨ ∃ d, NoLineTerminator d ∧ x.rest = '[' :: (d ++ ']' :: y.rest) ∧
      y.captures = ((((x.captures.set n none).set m none).set m (some d)).set n
        (some ('[' :: (d ++ [']'])))) := by
  cases h with
  | optNone => exact Or.inl rfl
  | optSome h' hlen =>
    right
    cases h' with
    | @group _ _ _ y' h'' =>
      obtain ⟨y₁, h₁, h''⟩ := h''.step_seq_inv
      obtain ⟨y₂, h₂, h₃⟩ := h''.step_seq_inv
      obtain ⟨hr₁, hc₁⟩ := h₁.step_char_inv
      obtain ⟨d, hr₂, hd, hc₂⟩ := h₂.group_star_any
      obtain ⟨hr₃, hc₃⟩ := h₃.step_char_inv
      have hxr : (x.clear (Regex.group n (.seq (.char '[')
          (.seq (.group m (.star false .any)) (.char ']')))).groups).rest = x.rest :=
        MatchState.clear_rest _ _
      have hxc : (x.clear (Regex.group n (.seq (.char '[')
          (.seq (.group m (.star false .any)) (.char ']')))).groups).captures
          = (x.captures.set n none).set m none := rfl
      have hrest : x.rest = '[' :: (d ++ ']' :: y'.rest) := by
        rw [← hxr, hr₁, hr₂, hr₃]
      refine ⟨d, hd, hrest, ?_⟩
      simp only
      rw [hxr, hc₃, hc₂, hc₁, hxc, hrest]
      have htake : ('[' :: (d ++ ']' :: y'.rest)).take
          (('[' :: (d ++ ']' :: y'.rest)).length - y'.rest.length) = '[' :: (d ++ [']']) := by
        have := take_consumed ('[' :: (d ++ [']'])) y'.rest
        simpa using this
      rw [htake]

theorem run_space_cons (ch : Char) (rest : wstring) (caps : List (Option wstring))
    (k : MatchCont) :
    Regex.space.run { rest := ch :: rest, captures := caps } k
      = if isSpace ch then k { rest := rest, captures := caps } else none := by
  simp [Regex.run]

theorem run_space_nil (caps : List (Option wstring)) (k : MatchCont) :
    Regex.space.run { rest := [], captures := caps } k = none := by
  simp [Regex.run]

/-- The final `(.*)` under the end-of-input test: it matches exactly when the rest
has no line terminator, and then captures the rest. -/
theorem run_group_rest_inv (n : Nat) (g : Bool) (s : wstring) (caps z : List (Option wstring))
    (h : (Regex.group n (.star g .any)).run { rest := s, captures := caps } atEnd = some z) :
    NoLineTerminator s ∧ z = caps.set n (some s) := by
  obtain ⟨y, hy, hk⟩ := Regex.run_steps _ _ _ _ h
  obtain ⟨u, hrest, hu, hcaps⟩ := hy.group_star_any
  have hy' : y.rest = [] ∧ z = y.captures := by
    unfold atEnd at hk
    by_cases he : y.rest.isEmpty = true
    · rw [if_pos he] at hk
      injection hk with hk
      exact ⟨by simpa using he, hk.symm⟩
    · rw [if_neg he] at hk
      cases hk
  simp only [hy'.1, List.append_nil] at hrest
  subst hrest
  exact ⟨hu, by rw [hy'.2, hcaps]⟩

/-- The greedy `\s*` in front of the final group: the group starts after the
longest run of whitespace. -/
theorem repeat_space_then_rest (K : MatchCont) (n : Nat) (caps : List (Option wstring))
    (hK₁ : ∀ s z, K { rest := s, captures := caps } = some z →
      NoLineTerminator s ∧ z = caps.set n (some s))
    (hK₂ : ∀ s, NoLineTerminator s → K { rest := s, captures := caps } = some (caps.set n (some s))) :
    ∀ (s : wstring) (fuel : Nat) (z : List (Option wstring)), s.length ≤ fuel →
      repeatMatcher (fun y c => Regex.space.run y c) [] true fuel
        { rest := s, captures := caps } K = some z →
      NoLineTerminator (s.dropWhile isSpace) ∧ z = caps.set n (some (s.dropWhile isSpace)) := by
  intro s
  induction s with
  | nil =>
    intro fuel z _ h
    cases fuel with
    | zero => simpa [repeatMatcher] using hK₁ [] z (by simpa [repeatMatcher] using h)
    | succ f =>
      have h' : K { rest := [], captures := caps } = some z := by
        simpa [repeatMatcher, MatchState.clear, run_space_nil] using h
      simpa using hK₁ [] z h'
  | cons ch s ih =>
    intro fuel z hfuel h
    obtain ⟨f, rfl⟩ : ∃ f, fuel = f + 1 := ⟨fuel - 1, by simp at hfuel; omega⟩
    by_cases hch : isSpace ch = true
    · have hdrop : (ch :: s).dropWhile isSpace = s.dropWhile isSpace := by
        simp [List.dropWhile, hch]
      rw [hdrop]
      cases hA : repeatMatcher (fun y c => Regex.space.run y c) [] true f
          { rest := s, captures := caps } K with
      | some z' =>
        have hz : z' = z := by
          simpa [repeatMatcher, MatchState.clear, run_space_cons, hch, hA] using h
        subst hz
        exact ih f z' (by simp at hfuel; omega) hA
      | none =>
        exfalso
        have hK : K { rest := ch :: s, captures := caps } = some z := by
          simpa [repeatMatcher, MatchState.clear, run_space_cons, hch, hA] using h
        have hs : NoLineTerminator s := fun c hc => (hK₁ _ _ hK).1 c (by simp [hc])
        have hKs := hK₂ s hs
        cases f with
        | zero =>
          simp [repeatMatcher, hKs] at hA
        | succ f' =>
          simp only [repeatMatcher, if_true, hKs] at hA
          split at hA <;> cases hA
    · have hdrop : (ch :: s).dropWhile isSpace = ch :: s := by
        simp [List.dropWhile, hch]
      rw [hdrop]
      have hK : K { rest := ch :: s, captures := caps } = some z := by
        simpa [repeatMatcher, MatchState.clear, run_space_cons, hch] using h
      exact hK₁ _ _ hK

/-- The end of the pattern, `\s*(.*)` under the end-of-input test. -/
theorem run_space_then_rest (s : wstring) (caps z : List (Option wstring))
    (h : (Regex.seq (.star true .space) (.group 5 (.star true .any))).run
      { rest := s, captures := caps } atEnd = some z) :
    NoLineTerminator (s.dropWhile isSpace) ∧ z = caps.set 5 (some (s.dropWhile isSpace)) := by
  rw [run_seq, Regex.run] at h
  exact repeat_space_then_rest _ 5 caps
    (fun s' z' h' => run_group_rest_inv 5 true s' caps z' h')
    (fun s' hs' => run_group_greedy_rest 5 s' caps hs') s _ z (le_refl _) h

theorem head_dropWhile_isSpace (s : wstring) :
    ∀ ch ∈ (s.dropWhile isSpace).head?, isSpace ch = false := by
  induction s with
  | nil => intro ch hch; simp at hch
  | cons c s ih =>
    by_cases hc : isSpace c = true
    · simpa [List.dropWhile, hc] using ih
    · intro ch hch
      simp only [List.dropWhile, hc, List.head?_cons, Option.mem_def, Option.some.injEq] at hch
      subst hch
      simpa using hc

theorem takeWhile_isSpace_allSpace (s : wstring) : AllSpace (s.takeWhile isSpace) := by
  intro ch hch
  exact (List.mem_takeWhile_imp hch)

/-- The sub-matches of a successful match: groups 1, 2 and 5 always take part,
groups 3 and 4 together or not at all; no capture holds a line terminator; the text
starts with no whitespace and is what is left of the input after a closing bracket
and the whitespace that follows it. -/
theorem diag_match_captures (s : wstring) (z : List (Option wstring))
    (h : diag_message_regex.run { rest := s, captures := List.replicate 6 none } atEnd
      = some z) :
    ∃ (v c : wstring) (o : Option wstring) (t : wstring),
      z = [none, some v, some c, o.map bracketed, o, some t] ∧
      NoLineTerminator v ∧ NoLineTerminator c ∧ (∀ d, o = some d → NoLineTerminator d) ∧
      NoLineTerminator t ∧ (∀ ch ∈ t.head?, isSpace ch = false) ∧
      ∃ pre w : wstring, AllSpace w ∧ s = pre ++ ']' :: (w ++ t) := by
  unfold diag_message_regex at h
  obtain ⟨x₁, s₁, h⟩ := run_seq_steps _ _ _ _ _ h
  obtain ⟨x₂, s₂, h⟩ := run_seq_steps _ _ _ _ _ h
  obtain ⟨x₃, s₃, h⟩ := run_seq_steps _ _ _ _ _ h
  obtain ⟨x₄, s₄, h⟩ := run_seq_steps _ _ _ _ _ h
  obtain ⟨x₅, s₅, h⟩ := run_seq_steps _ _ _ _ _ h
  obtain ⟨x₆, s₆, h⟩ := run_seq_steps _ _ _ _ _ h
  obtain ⟨x₇, s₇, h⟩ := run_seq_steps _ _ _ _ _ h
  obtain ⟨x₈, s₈, h⟩ := run_seq_steps _ _ _ _ _ h
  obtain ⟨x₉, s₉, h⟩ := run_seq_steps _ _ _ _ _ h
  obtain ⟨x₁₀, s₁₀, h⟩ := run_seq_steps _ _ _ _ _ h
  obtain ⟨c₁, u₁, r₁, _⟩ := s₁.step_star_space
  obtain ⟨r₂, c₂⟩ := s₂.step_char_inv
  obtain ⟨v, r₃, hv, c₃⟩ := s₃.group_star_any
  obtain ⟨r₄, c₄⟩ := s₄.step_char_inv
  obtain ⟨c₅, u₅, r₅, _⟩ := s₅.step_star_space
  obtain ⟨r₆, c₆⟩ := s₆.step_char_inv
  obtain ⟨c, r₇, hc, c₇⟩ := s₇.group_star_any
  obtain ⟨r₈, c₈⟩ := s₈.step_char_inv
  obtain ⟨c₉, u₉, r₉, hu₉⟩ := s₉.step_star_space
  obtain ⟨rest₁₀, caps₁₀⟩ := x₁₀
  obtain ⟨ht, hz⟩ := run_space_then_rest rest₁₀ caps₁₀ z h
  have hcaps₉ : x₉.captures = [none, some v, some c, none, none, none] := by
    rw [c₉, c₈, c₇, c₆, c₅, c₄, c₃, c₂, c₁]
    rfl
  have hs₉ : s = (u₁ ++ '[' :: (v ++ ']' :: (u₅ ++ '[' :: c))) ++ ']' :: (u₉ ++ x₉.rest) := by
    have r₁' : s = u₁ ++ x₁.rest := r₁
    rw [r₁', r₂, r₃, r₄, r₅, r₆, r₇, r₈, r₉]
    simp
  have hsplit : rest₁₀ = rest₁₀.takeWhile isSpace ++ rest₁₀.dropWhile isSpace :=
    (List.takeWhile_append_dropWhile _ _).symm
  have hw := takeWhile_isSpace_allSpace rest₁₀
  rcases s₁₀.opt_segment with hsame | ⟨d, hd, hr₁₀, hc₁₀⟩
  · refine ⟨v, c, none, rest₁₀.dropWhile isSpace, ?_, hv, hc, (fun d hd => by cases hd), ht,
      head_dropWhile_isSpace _, u₁ ++ '[' :: (v ++ ']' :: (u₅ ++ '[' :: c)),
      u₉ ++ rest₁₀.takeWhile isSpace, ?_, ?_⟩
    · have : caps₁₀ = x₉.captures := congrArg MatchState.captures hsame
      rw [hz, this, hcaps₉]
      rfl
    · intro ch hch
      rcases List.mem_append.1 hch with h' | h'
      · exact hu₉ ch h'
      · exact hw ch h'
    · have hr : rest₁₀ = x₉.rest := congrArg MatchState.rest hsame
      have hjoin : (u₉ ++ rest₁₀.takeWhile isSpace) ++ rest₁₀.dropWhile isSpace
          = u₉ ++ x₉.rest := by
        rw [List.append_assoc, ← hsplit, hr]
      rw [hjoin]
      exact hs₉
  · refine ⟨v, c, some d, rest₁₀.dropWhile isSpace, ?_, hv, hc, ?_, ht,
      head_dropWhile_isSpace _,
      (u₁ ++ '[' :: (v ++ ']' :: (u₅ ++ '[' :: c))) ++ ']' :: (u₉ ++ '[' :: d),
      rest₁₀.takeWhile isSpace, hw, ?_⟩
    · simp only at hc₁₀
      rw [hz, hc₁₀, hcaps₉]
      rfl
    · intro d' hd'
      injection hd' with hd'
      exact hd' ▸ hd
    · simp only at hr₁₀
      rw [← hsplit]
      refine hs₉.trans ?_
      rw [hr₁₀]
      simp

/-- What a successful parse says: the match, the message built from it and the
properties of its parts. -/
theorem GetDiagMessages.parse_ok_inv (s : wstring) (m : ODBCDiagnosticsMessage)
    (h : GetDiagMessages.parse s = .ok m) :
    ∃ (v c : wstring) (o : Option wstring) (t : wstring),
      regex_match s diag_message_regex
        = { subs := [some s, some v, some c, o.map bracketed, o, some t] } ∧
      m = { vendor := some v, component := some c, datasource := o, text := t } ∧
      NoLineTerminator v ∧ NoLineTerminator c ∧ (∀ d, o = some d → NoLineTerminator d) ∧
      NoLineTerminator t ∧ (∀ ch ∈ t.head?, isSpace ch = false) ∧
      ∃ pre w : wstring, AllSpace w ∧ s = pre ++ ']' :: (w ++ t) := by
  have hrm : ∀ z, diag_message_regex.run
      { rest := s, captures := List.replicate (diag_message_regex.mark_count + 1) none }
      (fun y => if y.rest.isEmpty then some y.captures else none) = some z →
      diag_message_regex.run { rest := s, captures := List.replicate 6 none } atEnd = some z :=
    fun z hz => hz
  cases hrun : diag_message_regex.run
      { rest := s, captures := List.replicate (diag_message_regex.mark_count + 1) none }
      (fun y => if y.rest.isEmpty then some y.captures else none) with
  | none =>
    have hmatch : regex_match s diag_message_regex = { subs := [] } := by
      simp only [regex_match, hrun]
    rw [GetDiagMessages.parse, hmatch] at h
    simp [match_results.size] at h
  | some z =>
    obtain ⟨v, c, o, t, hz, hv, hc, ho, ht, hts, hsuf⟩ := diag_match_captures s z (hrm z hrun)
    subst hz
    have hmatch : regex_match s diag_message_regex
        = { subs := [some s, some v, some c, o.map bracketed, o, some t] } := by
      simp only [regex_match, hrun]
      rfl
    refine ⟨v, c, o, t, hmatch, ?_, hv, hc, ho, ht, hts, hsuf⟩
    rw [GetDiagMessages.parse, hmatch] at h
    cases o with
    | none =>
      simp [match_results.size, match_results.matched, match_results.str] at h
      exact h.symm
    | some d =>
      simp [match_results.size, match_results.matched, match_results.str] at h
      exact h.symm

/-! ## Lemmas: what the matcher accepts -/

theorem repeatMatcher_isSome_of_cont (m : MatchState → MatchCont → Option (List (Option wstring)))
    (parens : List Nat) (g : Bool) (fuel : Nat) (x : MatchState) (k : MatchCont)
    (h : (k x).isSome = true) : (repeatMatcher m parens g fuel x k).isSome = true := by
  cases fuel with
  | zero => simpa [repeatMatcher] using h
  | succ f =>
    cases g with
    | true =>
      simp only [repeatMatcher, if_true]
      split
      · rfl
      · exact h
    | false =>
      simp only [repeatMatcher, Bool.false_eq_true, if_false]
      split
      · rfl
      · rename_i hnone
        rw [hnone] at h
        cases h

/-- The matcher finds a match whenever the pattern can match a prefix of the input
after which the continuation succeeds, whatever the captures are by then. -/
theorem Regex.run_complete {r : Regex} {u : wstring} (h : Regex.Matches r u) :
    ∀ (x : MatchState) (k : MatchCont) (tail : wstring), x.rest = u ++ tail →
      (∀ caps, (k { rest := tail, captures := caps }).isSome = true) →
      (r.run x k).isSome = true ∧
      (∀ g r', r = Regex.star g r' → ∀ fuel, x.rest.length ≤ fuel →
        (repeatMatcher (fun y c => r'.run y c) r'.groups g fuel x k).isSome = true) := by
  induction h with
  | char c =>
    intro x k tail hx hk
    obtain ⟨rest, caps⟩ := x
    simp only [List.singleton_append] at hx
    subst hx
    exact ⟨by rw [run_char_cons]; exact hk caps, fun g r' h => by cases h⟩
  | any ch hch =>
    intro x k tail hx hk
    obtain ⟨rest, caps⟩ := x
    simp only [List.singleton_append] at hx
    subst hx
    exact ⟨by rw [run_any_cons, hch]; exact hk caps, fun g r' h => by cases h⟩
  | space ch hch =>
    intro x k tail hx hk
    obtain ⟨rest, caps⟩ := x
    simp only [List.singleton_append] at hx
    subst hx
    exact ⟨by rw [run_space_cons, hch]; exact hk caps, fun g r' h => by cases h⟩
  | @seq r₁ r₂ u w _ _ ihu ihw =>
    intro x k tail hx hk
    refine ⟨?_, fun g r' h => by cases h⟩
    rw [run_seq]
    exact (ihu x (fun y => r₂.run y k) (w ++ tail) (by rw [hx, List.append_assoc])
      (fun caps => (ihw { rest := w ++ tail, captures := caps } k tail rfl hk).1)).1
  | @starNil g r =>
    intro x k tail hx hk
    have hkx : (k x).isSome = true := by
      obtain ⟨rest, caps⟩ := x
      simp only [List.nil_append] at hx
      subst hx
      exact hk caps
    refine ⟨?_, fun g' r' h fuel _ => ?_⟩
    · rw [Regex.run]
      exact repeatMatcher_isSome_of_cont _ _ _ _ _ _ hkx
    · exact repeatMatcher_isSome_of_cont _ _ _ _ _ _ hkx
  | @starCons g r u w _ _ ihu ihw =>
    intro x k tail hx hk
    have hstar : ∀ fuel, x.rest.length ≤ fuel →
        (repeatMatcher (fun y c => r.run y c) r.groups g fuel x k).isSome = true := by
      intro fuel hfuel
      by_cases hu : u = []
      · subst hu
        exact (ihw x k tail (by simpa using hx) hk).2 g r rfl fuel hfuel
      · have hlen : (w ++ tail).length < x.rest.length := by
          have : 0 < u.length := List.length_pos.2 hu
          simp only [hx, List.length_append]
          omega
        obtain ⟨f, rfl⟩ : ∃ f, fuel = f + 1 := ⟨fuel - 1, by omega⟩
        have hiter : (r.run (x.clear r.groups) (fun y =>
            if y.rest.length < x.rest.length
              then repeatMatcher (fun y c => r.run y c) r.groups g f y k else none)).isSome
            = true := by
          refine (ihu (x.clear r.groups) _ (w ++ tail)
            (by rw [MatchState.clear_rest, hx, List.append_assoc]) ?_).1
          intro caps
          simp only [hlen, if_true]
          exact (ihw { rest := w ++ tail, captures := caps } k tail rfl hk).2 g r rfl f
            (by simp only; omega)
        cases g with
        | true =>
          simp only [repeatMatcher, if_true]
          split
          · rfl
          · rename_i hnone
            rw [hnone] at hiter
            cases hiter
        | false =>
          simp only [repeatMatcher, Bool.false_eq_true, if_false]
          split
          · rfl
          · exact hiter
    refine ⟨?_, fun g' r' h fuel hfuel => ?_⟩
    · rw [Regex.run]
      exact hstar _ (le_refl _)
    · injection h with hg hr
      subst hg hr
      exact hstar fuel hfuel
  | @optNone r =>
    intro x k tail hx hk
    refine ⟨?_, fun g r' h => by cases h⟩
    have hkx : (k x).isSome = true := by
      obtain ⟨rest, caps⟩ := x
      simp only [List.nil_append] at hx
      subst hx
      exact hk caps
    rw [Regex.run]
    split
    · rfl
    · exact hkx
  | @optSome r u _ ih =>
    intro x k tail hx hk
    refine ⟨?_, fun g r' h => by cases h⟩
    rw [Regex.run]
    by_cases hu : u = []
    · subst hu
      have hkx : (k x).isSome = true := by
        obtain ⟨rest, caps⟩ := x
        simp only [List.nil_append] at hx
        subst hx
        exact hk caps
      split
      · rfl
      · exact hkx
    · have hlen : tail.length < x.rest.length := by
        have : 0 < u.length := List.length_pos.2 hu
        simp only [hx, List.length_append]
        omega
      have hiter : (r.run (x.clear r.groups)
          (fun y => if y.rest.length < x.rest.length then k y else none)).isSome = true := by
        refine (ih (x.clear r.groups) _ tail (by rw [MatchState.clear_rest, hx]) ?_).1
        intro caps
        simp only [hlen, if_true]
        exact hk caps
      split
      · rfl
      · rename_i hnone
        rw [hnone] at hiter
        cases hiter
  | @group n r u _ ih =>
    intro x k tail hx hk
    refine ⟨?_, fun g r' h => by cases h⟩
    rw [Regex.run]
    exact (ih x (fun y => k (MatchState.mk y.rest
      (y.captures.set n (some (x.rest.take (x.rest.length - y.rest.length)))))) tail hx
      (fun caps => hk _)).1

theorem Regex.Matches.of_allSpace (g : Bool) :
    ∀ w : wstring, AllSpace w → Regex.Matches (.star g .space) w := by
  intro w
  induction w with
  | nil => intro _; exact .starNil
  | cons ch w ih =>
    intro h
    exact .starCons (u := [ch]) (.space ch (h ch (by simp)))
      (ih (fun c hc => h c (by simp [hc])))

theorem Regex.Matches.of_noLineTerminator (g : Bool) :
    ∀ w : wstring, NoLineTerminator w → Regex.Matches (.star g .any) w := by
  intro w
  induction w with
  | nil => intro _; exact .starNil
  | cons ch w ih =>
    intro h
    exact .starCons (u := [ch]) (.any ch (h ch (by simp)))
      (ih (fun c hc => h c (by simp [hc])))

/-- The pattern can match every input that follows the grammar with one-line
segments and remainder. -/
theorem diag_message_regex_matches {s : wstring} (h : FollowsGrammar NoLineTerminator s) :
    Regex.Matches diag_message_regex s := by
  obtain ⟨w₀, v, w₁, c, w₂, third, w₃, t, h₀, h₁, h₂, h₃, hv, hc, hd, ht, rfl⟩ := h
  have hseg : ∀ (n : Nat) (d : wstring), NoLineTerminator d →
      Regex.Matches (.seq (.char '[') (.seq (.group n (.star false .any)) (.char ']')))
        (['['] ++ (d ++ [']'])) :=
    fun n d hd' => .seq (.char '[') (.seq (.group (.of_noLineTerminator false d hd')) (.char ']'))
  have hthird : Regex.Matches
      (.opt (.group 3 (.seq (.char '[') (.seq (.group 4 (.star false .any)) (.char ']')))))
      ((third.map bracketed).getD []) := by
    cases third with
    | none => exact .optNone
    | some d => exact .optSome (.group (hseg 4 d (hd d rfl)))
  have hall : Regex.Matches diag_message_regex
      (w₀ ++ (['['] ++ (v ++ ([']'] ++ (w₁ ++ (['['] ++ (c ++ ([']'] ++ (w₂ ++
        ((third.map bracketed).getD [] ++ (w₃ ++ t))))))))))) :=
    .seq (.of_allSpace true w₀ h₀) (.seq (.char '[')
      (.seq (.group (.of_noLineTerminator false v hv)) (.seq (.char ']')
      (.seq (.of_allSpace true w₁ h₁) (.seq (.char '[')
      (.seq (.group (.of_noLineTerminator false c hc)) (.seq (.char ']')
      (.seq (.of_allSpace true w₂ h₂) (.seq hthird
      (.seq (.of_allSpace true w₃ h₃) (.group (.of_noLineTerminator true t ht))))))))))))
  have heq : w₀ ++ bracketed v ++ w₁ ++ bracketed c ++ w₂ ++ (third.map bracketed).getD []
      ++ w₃ ++ t
      = w₀ ++ (['['] ++ (v ++ ([']'] ++ (w₁ ++ (['['] ++ (c ++ ([']'] ++ (w₂ ++
        ((third.map bracketed).getD [] ++ (w₃ ++ t)))))))))) := by
    simp [bracketed]
  rw [heq]
  exact hall

/-- Whatever the pattern can match is parsed. -/
theorem GetDiagMessages.parse_of_matches (s : wstring)
    (h : Regex.Matches diag_message_regex s) : ∃ m, GetDiagMessages.parse s = .ok m := by
  have hsome := (Regex.run_complete h
    { rest := s, captures := List.replicate (diag_message_regex.mark_count + 1) none }
    (fun y => if y.rest.isEmpty then some y.captures else none) [] (by simp)
    (fun caps => rfl)).1
  cases hrun : diag_message_regex.run
      { rest := s, captures := List.replicate (diag_message_regex.mark_count + 1) none }
      (fun y => if y.rest.isEmpty then some y.captures else none) with
  | none => rw [hrun] at hsome; cases hsome
  | some z =>
    obtain ⟨v, c, o, t, hz, _⟩ := diag_match_captures s z hrun
    subst hz
    have hmatch : regex_match s diag_message_regex
        = { subs := [some s, some v, some c, o.map bracketed, o, some t] } := by
      simp only [regex_match, hrun]
      rfl
    have hsize : ({ subs := [some s, some v, some c, o.map bracketed, o, some t] } :
        match_results).size = 6 := rfl
    rw [GetDiagMessages.parse, hmatch]
    dsimp only
    rw [if_pos hsize]
    exact ⟨_, rfl⟩

/-! ## Claims -/

/-! ### C1: the error-record reader -/

/-- C1: for a driver diagnostic source that reports success for record numbers
`1..N` and non-success for `N + 1`, `GetErrors` (given fuel for `N + 1` polls) returns
exactly the `N` records the driver reported, in ascending record order, when `N ≥ 1`,
and fails with `NoDiagnosticsError` when `N = 0`. -/
theorem GetErrors_returns_reported_records (SQLGetDiagRec : DiagRecFn) (handle : SQLHANDLE)
    (type : Int) (N fuel : Nat) (hsrc : HasRecords SQLGetDiagRec handle type N)
    (hfuel : N < fuel) :
    (1 ≤ N → GetErrors fuel SQLGetDiagRec handle type
      = some (.ok ((List.range' 1 N).map (reportedRecord SQLGetDiagRec handle type)))) ∧
    (N = 0 → GetErrors fuel SQLGetDiagRec handle type
      = some (.error (.NoDiagnosticsError handle type))) := by
  obtain ⟨hsucc, hstop⟩ := hsrc
  have hloop := GetErrors.loop_spec SQLGetDiagRec handle type N 1 fuel []
    (fun k hk1 hk2 => hsucc k hk1 (by omega))
    (by rw [show 1 + N = N + 1 by omega]; exact hstop) hfuel
  have h1 : toSQLSMALLINT ((1 : Nat) : Int) = 1 := by decide
  rw [h1] at hloop
  constructor
  · intro hN
    obtain ⟨m, rfl⟩ : ∃ m, N = m + 1 := ⟨N - 1, by omega⟩
    simp [GetErrors, hloop, List.range'_succ]
  · intro hN
    subst hN
    simp [GetErrors, hloop]

/-- C1 at a source with two records, and at a source with none. -/
theorem GetErrors_returns_reported_records_witness :
    GetErrors 3 demoDiagRec 8 SQL_HANDLE_DBC
        = some (.ok [{ message := "Memory allocation error".toList, native_error := -1,
                       state := "HY001".toList },
                     { message := "String data, right truncated".toList, native_error := 0,
                       state := "01004".toList }]) ∧
      GetErrors 1 demoDiagRec 9 SQL_HANDLE_DBC
        = some (.error (.NoDiagnosticsError 9 SQL_HANDLE_DBC)) :=
  ⟨(GetErrors_returns_reported_records demoDiagRec 8 SQL_HANDLE_DBC 2 3
      ⟨fun k h1 h2 => by interval_cases k <;> decide, by decide⟩ (by decide)).1 (by decide),
   (GetErrors_returns_reported_records demoDiagRec 9 SQL_HANDLE_DBC 0 1
      ⟨fun k h1 h2 => by omega, by decide⟩ (by decide)).2 rfl⟩

/-! ### C2: state checks of `Allocate` and `Release` -/

/-- C2: `Allocate` on a handle whose `_handle` is non-null fails with
`AllocationError`, and `Release` on a handle whose `_handle` is null fails with
`ReleaseError`; in both cases for every driver and driver state, with no driver call
made and the handle left as it was. -/
theorem Allocate_allocated_and_Release_unallocated_fail {σ : Type} (drv : Driver σ)
    (fuel : Nat) (self : ODBCHandle) (w : World σ) :
    (self._handle ≠ NULL → ∀ (type : SQLSMALLINT) (conn : SQLHANDLE),
      ODBCHandle.Allocate drv fuel self w type conn
        = some { result := .error (.AllocationError "Error, handle already allocated.".toList),
                 self := self, world := w }) ∧
    (self._handle = NULL →
      ODBCHandle.Release drv fuel self w
        = some { result := .error (.ReleaseError "Error, handle not allocated.".toList),
                 self := self, world := w }) := by
  constructor
  · intro h type conn
    simp [ODBCHandle.Allocate, h]
  · intro h
    simp [ODBCHandle.Release, h]

/-- C2 at an allocated statement handle and at a fresh handle. -/
theorem Allocate_allocated_and_Release_unallocated_fail_witness :
    ODBCHandle.Allocate grantingDriver 0 statementOn7 world₀ SQL_HANDLE_STMT 7
        = some { result := .error (.AllocationError "Error, handle already allocated.".toList),
                 self := statementOn7, world := world₀ } ∧
      ODBCHandle.Release grantingDriver 0 ODBCHandle.ctor world₀
        = some { result := .error (.ReleaseError "Error, handle not allocated.".toList),
                 self := ODBCHandle.ctor, world := world₀ } :=
  ⟨(Allocate_allocated_and_Release_unallocated_fail grantingDriver 0 statementOn7 world₀).1
      (by decide) SQL_HANDLE_STMT 7,
   (Allocate_allocated_and_Release_unallocated_fail grantingDriver 0 ODBCHandle.ctor world₀).2
      rfl⟩

/-! ### C3: allocate/release cycles -/

/-- C3: with a driver whose allocate primitive always succeeds with a non-null
handle and whose free primitive always succeeds, `Allocate(K, P)` followed by
`Release()` on an unallocated handle succeeds and leaves it unallocated, and so does
any sequence of such cycles. -/
theorem allocate_release_cycles_succeed {σ : Type} (drv : Driver σ)
    (halloc : ∀ s type conn, SQL_SUCCEEDED (drv.SQLAllocHandle s type conn).1 = true ∧
      (drv.SQLAllocHandle s type conn).2.1 ≠ NULL)
    (hfree : ∀ s type h, SQL_SUCCEEDED (drv.SQLFreeHandle s type h).1 = true)
    (fuel : Nat) (self : ODBCHandle) (w : World σ) (hself : self._handle = NULL) :
    (∀ (K : SQLSMALLINT) (P : SQLHANDLE), ∃ a r,
      ODBCHandle.Allocate drv fuel self w K P = some a ∧ a.result = .ok () ∧
      ODBCHandle.Release drv fuel a.self a.world = some r ∧ r.result = .ok () ∧
      r.self._handle = NULL) ∧
    (∀ cycles : List (SQLSMALLINT × SQLHANDLE), ∃ o,
      allocateReleaseCycles drv fuel cycles self w = some o ∧ o.result = .ok () ∧
      o.self._handle = NULL) := by
  have step := allocate_release_step drv halloc hfree fuel
  constructor
  · intro K P
    exact step self w hself K P
  · intro cycles
    induction cycles generalizing self w with
    | nil => exact ⟨_, rfl, rfl, hself⟩
    | cons kp rest ih =>
      obtain ⟨K, P⟩ := kp
      obtain ⟨a, r, ha, hares, hr, hrres, hnull⟩ := step self w hself K P
      obtain ⟨o, ho, hores, honull⟩ := ih r.self r.world hnull
      refine ⟨o, ?_, hores, honull⟩
      simp only [allocateReleaseCycles, ha, hares, hr, hrres]
      exact ho

/-- C3 with the granting driver: one cycle, and three cycles of different kinds. -/
theorem allocate_release_cycles_succeed_witness :
    (∃ a r, ODBCHandle.Allocate grantingDriver 0 ODBCHandle.ctor world₀ SQL_HANDLE_STMT 7
        = some a ∧ a.result = .ok () ∧
      ODBCHandle.Release grantingDriver 0 a.self a.world = some r ∧ r.result = .ok () ∧
      r.self._handle = NULL) ∧
    (∃ o, allocateReleaseCycles grantingDriver 0
        [(SQL_HANDLE_STMT, 7), (SQL_HANDLE_DESC, 7), (SQL_HANDLE_DBC, 1)] ODBCHandle.ctor world₀
        = some o ∧ o.result = .ok () ∧ o.self._handle = NULL) :=
  ⟨(allocate_release_cycles_succeed grantingDriver (fun _ _ _ => ⟨rfl, Nat.succ_ne_zero 10⟩)
      (fun _ _ _ => rfl) 0 ODBCHandle.ctor world₀ rfl).1 SQL_HANDLE_STMT 7,
   (allocate_release_cycles_succeed grantingDriver (fun _ _ _ => ⟨rfl, Nat.succ_ne_zero 10⟩)
      (fun _ _ _ => rfl) 0 ODBCHandle.ctor world₀ rfl).2 _⟩

/-! ### C4: messages with a data-source segment -/

/-- C4: a message `[v][c][d]t`, with `v`, `c`, `d` free of `]` and of line
terminators and `t` free of line terminators and not starting with whitespace, parses
to vendor `v`, component `c`, data source `d` and text `t`. -/
theorem parse_vendor_component_datasource (v c d t : wstring)
    (hv : ∀ ch ∈ v, ch ≠ ']' ∧ isLineTerminator ch = false)
    (hc : ∀ ch ∈ c, ch ≠ ']' ∧ isLineTerminator ch = false)
    (hd : ∀ ch ∈ d, ch ≠ ']' ∧ isLineTerminator ch = false)
    (ht : ∀ ch ∈ t, isLineTerminator ch = false)
    (hts : ∀ ch ∈ t.head?, isSpace ch = false) :
    GetDiagMessages.parse (bracketed v ++ bracketed c ++ bracketed d ++ t)
      = .ok { vendor := some v, component := some c, datasource := some d, text := t } := by
  have hin : bracketed v ++ bracketed c ++ bracketed d ++ t
      = '[' :: (v ++ ']' :: ('[' :: (c ++ ']' :: ('[' :: (d ++ ']' :: t))))) := by
    simp [bracketed]
  have hrun : diag_message_regex.run
      { rest := '[' :: (v ++ ']' :: ('[' :: (c ++ ']' :: ('[' :: (d ++ ']' :: t))))),
        captures := List.replicate (diag_message_regex.mark_count + 1) none }
      (fun y => if y.rest.isEmpty then some y.captures else none)
      = some [none, some v, some c, some ('[' :: (d ++ [']'])), some d, some t] := by
    unfold diag_message_regex
    rw [run_seq, run_star_space_stop _ _ _ (by simp; decide)]
    apply run_segment 1 v _ _ _ _ _ hv
    rw [run_seq, run_star_space_stop _ _ _ (by simp; decide)]
    apply run_segment 2 c _ _ _ _ _ hc
    rw [run_seq, run_star_space_stop _ _ _ (by simp; decide), run_seq]
    apply run_opt_segment 3 4 d t _ _ _ hd
    rw [run_seq, run_star_space_stop _ _ _ hts, run_group_greedy_rest 5 t _ ht]
    rfl
  rw [hin]
  simp only [GetDiagMessages.parse, regex_match, hrun]
  rfl

/-- C4 at the SQL Server message with a data-source segment. -/
theorem parse_vendor_component_datasource_witness :
    GetDiagMessages.parse
        "[Microsoft][ODBC SQL Server Driver][SQL Server]Invalid column name 'foo'.".toList
      = .ok { vendor := some "Microsoft".toList,
              component := some "ODBC SQL Server Driver".toList,
              datasource := some "SQL Server".toList,
              text := "Invalid column name 'foo'.".toList } :=
  parse_vendor_component_datasource "Microsoft".toList "ODBC SQL Server Driver".toList
    "SQL Server".toList "Invalid column name 'foo'.".toList
    (by decide) (by decide) (by decide) (by decide) (by decide)

/-! ### C5: messages without data-source segment -/

/-- C5: a message `[v][c]t` without data-source segment, with `v`, `c` free of `]`
and of line terminators and `t` free of line terminators and starting with neither
whitespace nor `[`, parses to vendor `v`, component `c`, no data source and text
`t`. -/
theorem parse_vendor_component (v c t : wstring)
    (hv : ∀ ch ∈ v, ch ≠ ']' ∧ isLineTerminator ch = false)
    (hc : ∀ ch ∈ c, ch ≠ ']' ∧ isLineTerminator ch = false)
    (ht : ∀ ch ∈ t, isLineTerminator ch = false)
    (hts : ∀ ch ∈ t.head?, isSpace ch = false ∧ ch ≠ '[') :
    GetDiagMessages.parse (bracketed v ++ bracketed c ++ t)
      = .ok { vendor := some v, component := some c, datasource := none, text := t } := by
  have hin : bracketed v ++ bracketed c ++ t
      = '[' :: (v ++ ']' :: ('[' :: (c ++ ']' :: t))) := by
    simp [bracketed]
  have hrun : diag_message_regex.run
      { rest := '[' :: (v ++ ']' :: ('[' :: (c ++ ']' :: t))),
        captures := List.replicate (diag_message_regex.mark_count + 1) none }
      (fun y => if y.rest.isEmpty then some y.captures else none)
      = some [none, some v, some c, none, none, some t] := by
    unfold diag_message_regex
    rw [run_seq, run_star_space_stop _ _ _ (by simp; decide)]
    apply run_segment 1 v _ _ _ _ _ hv
    rw [run_seq, run_star_space_stop _ _ _ (by simp; decide)]
    apply run_segment 2 c _ _ _ _ _ hc
    rw [run_seq, run_star_space_stop _ _ _ (fun ch h => (hts ch h).1), run_seq,
      run_opt_skip 3 _ _ _ (fun ch h => (hts ch h).2),
      run_seq, run_star_space_stop _ _ _ (fun ch h => (hts ch h).1),
      run_group_greedy_rest 5 t _ ht]
    rfl
  rw [hin]
  simp only [GetDiagMessages.parse, regex_match, hrun]
  rfl

/-- C5 at the SQL Server message without data-source segment. -/
theorem parse_vendor_component_witness :
    GetDiagMessages.parse "[Microsoft][ODBC SQL Server Driver]Syntax error.".toList
      = .ok { vendor := some "Microsoft".toList,
              component := some "ODBC SQL Server Driver".toList,
              datasource := none,
              text := "Syntax error.".toList } :=
  parse_vendor_component "Microsoft".toList "ODBC SQL Server Driver".toList
    "Syntax error.".toList (by decide) (by decide) (by decide) (by decide)

/-! ### C6: inputs with fewer than two segments -/

/-- C6: an input that does not start, after optional whitespace, with two bracketed
segments is refused with `InvalidMessageFormatError`; no message is produced. -/
theorem parse_fewer_than_two_segments_fails (s : wstring) (h : ¬ StartsWithTwoSegments s) :
    GetDiagMessages.parse s = .error .InvalidMessageFormatError := by
  have hsize : (regex_match s diag_message_regex).size ≠ 6 :=
    fun hs => h (regex_match_diag_size s hs)
  simp [GetDiagMessages.parse, hsize]

/-- C6 at an input without bracketed segment and at one with a single segment. -/
theorem parse_fewer_than_two_segments_fails_witness :
    GetDiagMessages.parse "Syntax error.".toList = .error .InvalidMessageFormatError ∧
      GetDiagMessages.parse "[Microsoft] Syntax error.".toList
        = .error .InvalidMessageFormatError :=
  ⟨parse_fewer_than_two_segments_fails "Syntax error.".toList
      (fun h => absurd h.count_close (by decide)),
   parse_fewer_than_two_segments_fails "[Microsoft] Syntax error.".toList
      (fun h => absurd h.count_close (by decide))⟩

/-! ### C7: the formatted report -/

/-- C7: whenever `GetErrors` yields the (non-empty) sequence `errors`, `GetError`
yields the lines `SQLSTATE: <state>, Native error: <native_error>, Message: <message>`
of its records, in record order, joined by one line feed between consecutive lines,
with none before the first line and none after the last. -/
theorem GetError_joins_error_lines (fuel : Nat) (SQLGetDiagRec : DiagRecFn)
    (handle : SQLHANDLE) (type : Int) (errors : List ODBCError)
    (hget : GetErrors fuel SQLGetDiagRec handle type = some (.ok errors)) :
    errors ≠ [] ∧
      GetError fuel SQLGetDiagRec handle type
        = some (.ok (joinLines (errors.map errorLine))) := by
  refine ⟨GetErrors_ok_ne_nil hget, ?_⟩
  simp [GetError, hget, GetError.loop_eq_joinLines]

/-- C7 at the single record `42S02`, `208`, `Invalid object name`. -/
theorem GetError_joins_error_lines_witness :
    GetErrors 2 demoDiagRec 7 SQL_HANDLE_DBC
        = some (.ok [{ message := "Invalid object name".toList, native_error := 208,
                       state := "42S02".toList }]) ∧
      GetError 2 demoDiagRec 7 SQL_HANDLE_DBC
        = some (.ok
            "SQLSTATE: 42S02, Native error: 208, Message: Invalid object name".toList) :=
  ⟨by decide,
   (GetError_joins_error_lines 2 demoDiagRec 7 SQL_HANDLE_DBC
      [{ message := "Invalid object name".toList, native_error := 208,
         state := "42S02".toList }] (by decide)).2⟩

/-! ### C8: the report over an empty source -/

/-- C8 fails: over a source with no record `GetError` raises `NoDiagnosticsError`
and, whatever the fuel, never yields the empty text. -/
theorem GetError_empty_source_counterexample :
    HasRecords demoDiagRec 9 SQL_HANDLE_DBC 0 ∧
      GetError 1 demoDiagRec 9 SQL_HANDLE_DBC
        = some (.error (.NoDiagnosticsError 9 SQL_HANDLE_DBC)) ∧
      ∀ fuel, GetError fuel demoDiagRec 9 SQL_HANDLE_DBC ≠ some (.ok []) := by
  refine ⟨⟨fun k h1 h2 => by omega, by decide⟩, by decide, ?_⟩
  intro fuel
  cases fuel with
  | zero => decide
  | succ n =>
    have h : GetError (n + 1) demoDiagRec 9 SQL_HANDLE_DBC
        = some (.error (.NoDiagnosticsError 9 SQL_HANDLE_DBC)) := by
      simp [GetError, GetErrors, GetErrors.loop, demoDiagRec, SQL_SUCCEEDED, toSQLSMALLINT,
        SQL_HANDLE_DBC, SQL_NO_DATA, SQL_SUCCESS, SQL_SUCCESS_WITH_INFO, NULL]
    rw [h]
    decide

/-- C8, amended: over a diagnostic source with no error record (record number 1
already non-success) `GetError` fails with `NoDiagnosticsError`, the failure of the
`GetErrors` call it starts with. -/
theorem GetError_empty_source_fails (fuel : Nat) (SQLGetDiagRec : DiagRecFn)
    (handle : SQLHANDLE) (type : Int) (hsrc : HasRecords SQLGetDiagRec handle type 0)
    (hfuel : 0 < fuel) :
    GetError fuel SQLGetDiagRec handle type
      = some (.error (.NoDiagnosticsError handle type)) := by
  have h := GetErrors_no_record fuel SQLGetDiagRec handle type hsrc hfuel
  simp [GetError, h]

/-- C8, amended, at a connection without diagnostics. -/
theorem GetError_empty_source_fails_witness :
    GetError 1 demoDiagRec 9 SQL_HANDLE_DBC
      = some (.error (.NoDiagnosticsError 9 SQL_HANDLE_DBC)) :=
  GetError_empty_source_fails 1 demoDiagRec 9 SQL_HANDLE_DBC
    ⟨fun k h1 h2 => by omega, by decide⟩ (by decide)

/-! ### C9: destruction of an allocated handle -/

/-- C9 fails: with a driver whose free primitive answers `SQL_ERROR`, destroying an
allocated handle ends in the exception `Release` throws: `ReleaseError` when the
parent connection has diagnostics, `NoDiagnosticsError` when it has none. -/
theorem destructor_failure_escapes_counterexample :
    ODBCHandle.destructor refusingDriver 2 statementOn7 world₀
        = some { result := .error (.ReleaseError ("Error releasing handle. SQLSTATE: 42S02, "
                    ++ "Native error: 208, Message: Invalid object name").toList),
                 self := statementOn7,
                 world := { state := (), calls := [.freeHandle SQL_HANDLE_STMT 11] } } ∧
      ODBCHandle.destructor refusingDriver 2 statementOn9 world₀
        = some { result := .error (.NoDiagnosticsError 9 SQL_HANDLE_DBC),
                 self := statementOn9,
                 world := { state := (), calls := [.freeHandle SQL_HANDLE_STMT 12] } } := by
  constructor <;> decide

/-- C9, amended: destroying an allocated handle calls the driver's free primitive
once, for the handle's kind and resource value. When that call succeeds the
destruction ends without failure and the handle is unallocated. When it does not,
the failure of `Release` leaves the destructor and the handle stays allocated: for a
parent connection with `N` diagnostic records (and fuel for `N + 1` polls) it is
`ReleaseError` with the formatted records when `N ≥ 1` and `NoDiagnosticsError` when
`N = 0`. -/
theorem destructor_frees_once_failure_escapes {σ : Type} (drv : Driver σ) (fuel : Nat)
    (self : ODBCHandle) (w : World σ) (hself : self._handle ≠ NULL) :
    (SQL_SUCCEEDED (drv.SQLFreeHandle w.state self._type self._handle).1 = true →
      ODBCHandle.destructor drv fuel self w
        = some { result := .ok (), self := { self with _handle := NULL },
                 world := { state := (drv.SQLFreeHandle w.state self._type self._handle).2,
                            calls := w.calls ++ [.freeHandle self._type self._handle] } }) ∧
    (SQL_SUCCEEDED (drv.SQLFreeHandle w.state self._type self._handle).1 = false →
      ∀ N : Nat,
        HasRecords (drv.SQLGetDiagRec (drv.SQLFreeHandle w.state self._type self._handle).2)
          self._hconn SQL_HANDLE_DBC N →
        N < fuel →
        ODBCHandle.destructor drv fuel self w
          = some { result := .error
                     (if N = 0 then .NoDiagnosticsError self._hconn SQL_HANDLE_DBC
                      else .ReleaseError ("Error releasing handle. ".toList ++ joinLines
                        (((List.range' 1 N).map
                          (reportedRecord
                            (drv.SQLGetDiagRec
                              (drv.SQLFreeHandle w.state self._type self._handle).2)
                            self._hconn SQL_HANDLE_DBC)).map errorLine))),
                   self := self,
                   world := { state := (drv.SQLFreeHandle w.state self._type self._handle).2,
                              calls := w.calls ++ [.freeHandle self._type self._handle] } }) := by
  constructor
  · intro hs
    simp [ODBCHandle.destructor, ODBCHandle.Release, hself, hs]
  · intro hs N hsrc hfuel
    have hge := GetError_of_records fuel _ _ _ N hsrc hfuel
    by_cases hN : N = 0
    · simp only [hN, if_true] at hge ⊢
      simp [ODBCHandle.destructor, ODBCHandle.Release, hself, hs, hge]
    · simp only [hN, if_false] at hge ⊢
      simp [ODBCHandle.destructor, ODBCHandle.Release, hself, hs, hge]

/-- C9, amended, at a free call that succeeds and at one that is refused. -/
theorem destructor_frees_once_failure_escapes_witness :
    ODBCHandle.destructor grantingDriver 0 statementOn7 world₀
        = some { result := .ok (),
                 self := { _type := SQL_HANDLE_STMT, _hconn := 7, _handle := NULL },
                 world := { state := (), calls := [.freeHandle SQL_HANDLE_STMT 11] } } ∧
      ODBCHandle.destructor refusingDriver 2 statementOn7 world₀
        = some { result := .error (.ReleaseError ("Error releasing handle. SQLSTATE: 42S02, "
                    ++ "Native error: 208, Message: Invalid object name").toList),
                 self := statementOn7,
                 world := { state := (), calls := [.freeHandle SQL_HANDLE_STMT 11] } } :=
  ⟨(destructor_frees_once_failure_escapes grantingDriver 0 statementOn7 world₀
      (by decide)).1 rfl,
   (destructor_frees_once_failure_escapes refusingDriver 2 statementOn7 world₀
      (by decide)).2 rfl 1 ⟨fun k h1 h2 => by interval_cases k; decide, by decide⟩
      (by decide)⟩

/-! ### C10: diagnostics of a refused allocation -/

/-- C10, the code at the failing input: a fresh handle (stored parent null) is
asked to allocate a statement on connection `7`, the driver refuses, and connection
`7` carries one diagnostic record. `Allocate` reads the diagnostics of the stored
parent, the null handle, and ends in `NoDiagnosticsError`; on a handle whose stored
parent is connection `8` it reports the records of connection `8`. The formatted
diagnostics of the parent passed in are not used. -/
theorem Allocate_reads_stored_parent :
    GetError 2 demoDiagRec 7 SQL_HANDLE_DBC
        = some (.ok
            "SQLSTATE: 42S02, Native error: 208, Message: Invalid object name".toList) ∧
      ODBCHandle.Allocate refusingDriver 3 ODBCHandle.ctor world₀ SQL_HANDLE_STMT 7
        = some { result := .error (.NoDiagnosticsError NULL SQL_HANDLE_DBC),
                 self := ODBCHandle.ctor,
                 world := { state := (), calls := [.allocHandle SQL_HANDLE_STMT 7] } } ∧
      ODBCHandle.Allocate refusingDriver 3
          { _type := SQL_HANDLE_STMT, _hconn := 8, _handle := NULL } world₀ SQL_HANDLE_STMT 7
        = some { result := .error (.AllocationError ("Error allocating handle. "
                    ++ "SQLSTATE: HY001, Native error: -1, Message: Memory allocation error\n"
                    ++ "SQLSTATE: 01004, Native error: 0, Message: String data, right truncated"
                    ).toList),
                 self := { _type := SQL_HANDLE_STMT, _hconn := 8, _handle := NULL },
                 world := { state := (), calls := [.allocHandle SQL_HANDLE_STMT 7] } } := by
  refine ⟨by decide, by decide, by decide⟩

/-! ### C11: the diagnostic-field reader -/

/-- C11: for every field identifier and every driver diagnostic source that reports
success for that field of record numbers `1..N` and non-success for `N + 1`,
`GetDiagFields` (given fuel for `N + 1` polls) returns exactly the `N` field texts, in
ascending record order, when `N ≥ 1`, and fails with `NoDiagnosticsError` when
`N = 0`. -/
theorem GetDiagFields_returns_reported_fields (SQLGetDiagField : DiagFieldFn)
    (handle : SQLHANDLE) (type diagidentifier : Int) (N fuel : Nat)
    (hsrc : HasFields SQLGetDiagField handle type diagidentifier N) (hfuel : N < fuel) :
    (1 ≤ N → GetDiagFields fuel SQLGetDiagField handle type diagidentifier
      = some (.ok ((List.range' 1 N).map
          (reportedField SQLGetDiagField handle type diagidentifier)))) ∧
    (N = 0 → GetDiagFields fuel SQLGetDiagField handle type diagidentifier
      = some (.error (.NoDiagnosticsError handle diagidentifier))) := by
  obtain ⟨hsucc, hstop⟩ := hsrc
  have hloop := GetDiagFields.field_loop_spec SQLGetDiagField handle type diagidentifier N 1 fuel []
    (fun k hk1 hk2 => hsucc k hk1 (by omega))
    (by rw [show 1 + N = N + 1 by omega]; exact hstop) hfuel
  have h1 : toSQLSMALLINT ((1 : Nat) : Int) = 1 := by decide
  rw [h1] at hloop
  constructor
  · intro hN
    obtain ⟨m, rfl⟩ : ∃ m, N = m + 1 := ⟨N - 1, by omega⟩
    simp [GetDiagFields, hloop, List.range'_succ]
  · intro hN
    subst hN
    simp [GetDiagFields, hloop]

/-- C11 at a source with two message texts, and at a source with none. -/
theorem GetDiagFields_returns_reported_fields_witness :
    GetDiagFields 3 demoDiagField 8 SQL_HANDLE_DBC SQL_DIAG_MESSAGE_TEXT
        = some (.ok ["[Microsoft][ODBC Driver Manager]Memory".toList,
                     "[Microsoft][ODBC SQL Server Driver][SQL Server]Gone".toList]) ∧
      GetDiagFields 1 demoDiagField 9 SQL_HANDLE_DBC SQL_DIAG_MESSAGE_TEXT
        = some (.error (.NoDiagnosticsError 9 SQL_DIAG_MESSAGE_TEXT)) :=
  ⟨(GetDiagFields_returns_reported_fields demoDiagField 8 SQL_HANDLE_DBC SQL_DIAG_MESSAGE_TEXT
      2 3 ⟨fun k h1 h2 => by interval_cases k <;> decide, by decide⟩ (by decide)).1 (by decide),
   (GetDiagFields_returns_reported_fields demoDiagField 9 SQL_HANDLE_DBC SQL_DIAG_MESSAGE_TEXT
      0 1 ⟨fun k h1 h2 => by omega, by decide⟩ (by decide)).2 rfl⟩

/-! ### C12: what the parser accepts -/

/-- C12 fails: a remainder of two lines follows the grammar when any characters are
allowed, and so does a first segment of two lines, but both inputs are refused: `.`
matches no line terminator. -/
theorem parse_refuses_line_terminator_counterexample :
    FollowsGrammar (fun _ => True)
        "[Microsoft][ODBC SQL Server Driver]Line 1\nLine 2".toList ∧
      GetDiagMessages.parse "[Microsoft][ODBC SQL Server Driver]Line 1\nLine 2".toList
        = .error .InvalidMessageFormatError ∧
      FollowsGrammar (fun _ => True) "[Micro\nsoft][ODBC SQL Server Driver]Line 1".toList ∧
      GetDiagMessages.parse "[Micro\nsoft][ODBC SQL Server Driver]Line 1".toList
        = .error .InvalidMessageFormatError := by
  refine ⟨⟨[], "Microsoft".toList, [], "ODBC SQL Server Driver".toList, [], none, [],
      "Line 1\nLine 2".toList, ?_, ?_, ?_, ?_, trivial, trivial, fun _ _ => trivial, trivial,
      by decide⟩, by decide,
    ⟨[], "Micro\nsoft".toList, [], "ODBC SQL Server Driver".toList, [], none, [],
      "Line 1".toList, ?_, ?_, ?_, ?_, trivial, trivial, fun _ _ => trivial, trivial,
      by decide⟩, by decide⟩ <;>
  · intro ch hch
    cases hch

/-- C12, amended: every input that follows the grammar - optional whitespace, two
bracketed segments, an optional third bracketed segment and a remainder, with
arbitrary whitespace around the segments - and in which neither the contents of the
segments nor the remainder hold a line terminator, is parsed: the parser does not
fail with `InvalidMessageFormatError`. -/
theorem parse_accepts_one_line_grammar (s : wstring)
    (h : FollowsGrammar NoLineTerminator s) :
    ∃ m, GetDiagMessages.parse s = .ok m ∧
      GetDiagMessages.parse s ≠ .error .InvalidMessageFormatError := by
  obtain ⟨m, hm⟩ := GetDiagMessages.parse_of_matches s (diag_message_regex_matches h)
  exact ⟨m, hm, by rw [hm]; intro hc; cases hc⟩

/-- C12, amended, at a message with whitespace around its three segments, brackets
inside the first segment and the remainder, and a remainder that ends in
whitespace. -/
theorem parse_accepts_one_line_grammar_witness :
    ∃ m, GetDiagMessages.parse " [a]b] \t[c] [d]\n [x] y ".toList = .ok m ∧
      GetDiagMessages.parse " [a]b] \t[c] [d]\n [x] y ".toList
        ≠ .error .InvalidMessageFormatError :=
  parse_accepts_one_line_grammar " [a]b] \t[c] [d]\n [x] y ".toList
    ⟨" ".toList, "a]b".toList, " \t".toList, "c".toList, " ".toList, some "d".toList,
      "\n ".toList, "[x] y ".toList, by decide, by decide, by decide, by decide, by decide,
      by decide, fun d hd => Option.some.inj hd ▸ (by decide), by decide, by decide⟩

/-! ### C13: the members after a successful `Allocate` -/

/-- C13 fails: a driver may answer `SQL_SUCCESS` and leave the output handle null;
`Allocate` then returns normally with the kind and the parent stored, and the handle
is not in the allocated state. -/
theorem Allocate_null_value_counterexample :
    ODBCHandle.Allocate emptyHandedDriver 0 ODBCHandle.ctor world₀ SQL_HANDLE_STMT 7
        = some { result := .ok (),
                 self := { _type := SQL_HANDLE_STMT, _hconn := 7, _handle := NULL },
                 world := { state := (), calls := [.allocHandle SQL_HANDLE_STMT 7] } } ∧
      ¬ ODBCHandle.allocated { _type := SQL_HANDLE_STMT, _hconn := 7, _handle := NULL } := by
  constructor
  · decide
  · intro h
    exact h rfl

/-- C13, amended: after `Allocate(kind, parent)` on an unallocated handle for which
the driver answers success or success-with-info together with the value `v`, the
call returns normally, the kind is `kind`, the parent is `parent`, the resource
value is `v`, and the handle is in the allocated state exactly when `v` is not
null. -/
theorem Allocate_success_stores_members {σ : Type} (drv : Driver σ) (fuel : Nat)
    (self : ODBCHandle) (w : World σ) (type : SQLSMALLINT) (conn : SQLHANDLE)
    (hself : self._handle = NULL)
    (hrc : SQL_SUCCEEDED (drv.SQLAllocHandle w.state type conn).1 = true) :
    ∃ o, ODBCHandle.Allocate drv fuel self w type conn = some o ∧ o.result = .ok () ∧
      o.self._type = type ∧ o.self._hconn = conn ∧
      o.self._handle = (drv.SQLAllocHandle w.state type conn).2.1 ∧
      (o.self.allocated ↔ (drv.SQLAllocHandle w.state type conn).2.1 ≠ NULL) := by
  refine ⟨{ result := .ok (),
            self := { _type := type, _hconn := conn,
                      _handle := (drv.SQLAllocHandle w.state type conn).2.1 },
            world := { state := (drv.SQLAllocHandle w.state type conn).2.2,
                       calls := w.calls ++ [.allocHandle type conn] } },
    ?_, rfl, rfl, rfl, rfl, Iff.rfl⟩
  simp [ODBCHandle.Allocate, hself, hrc]

/-- C13, amended, at a fresh handle and a driver that hands out handle `11`. -/
theorem Allocate_success_stores_members_witness :
    ∃ o, ODBCHandle.Allocate grantingDriver 0 ODBCHandle.ctor world₀ SQL_HANDLE_STMT 7 = some o ∧
      o.result = .ok () ∧ o.self._type = SQL_HANDLE_STMT ∧ o.self._hconn = 7 ∧
      o.self._handle = 11 ∧ (o.self.allocated ↔ (11 : SQLHANDLE) ≠ NULL) :=
  Allocate_success_stores_members grantingDriver 0 ODBCHandle.ctor world₀ SQL_HANDLE_STMT 7
    rfl rfl

/-! ### C14: destruction of an unallocated handle -/

/-- C14: destroying a handle whose `_handle` is null returns normally and leaves
the world, call log included, as it was: `Release` is not entered and the free
primitive is not invoked. This covers a handle that was never allocated and a handle
on which `Release` has succeeded. -/
theorem destructor_unallocated_does_nothing {σ : Type} (drv : Driver σ) (fuel : Nat)
    (self : ODBCHandle) (w : World σ) :
    (self._handle = NULL →
      ODBCHandle.destructor drv fuel self w
        = some { result := .ok (), self := self, world := w }) ∧
    ODBCHandle.destructor drv fuel ODBCHandle.ctor w
      = some { result := .ok (), self := ODBCHandle.ctor, world := w } ∧
    (∀ (fuel' : Nat) (r : Outcome σ), ODBCHandle.Release drv fuel' self w = some r →
      r.result = .ok () →
      ODBCHandle.destructor drv fuel r.self r.world
        = some { result := .ok (), self := r.self, world := r.world }) := by
  have hnull : ∀ (s : ODBCHandle) (w' : World σ), s._handle = NULL →
      ODBCHandle.destructor drv fuel s w' = some { result := .ok (), self := s, world := w' } := by
    intro s w' hs
    simp [ODBCHandle.destructor, hs]
  refine ⟨hnull self w, hnull _ w rfl, ?_⟩
  intro fuel' r hr hok
  apply hnull
  rcases Release_outcome drv fuel' self w r hr with ⟨_, hn⟩ | ⟨hne, _⟩
  · exact hn
  · exact absurd hok hne

/-- C14 at a fresh handle and at a statement handle after its release. -/
theorem destructor_unallocated_does_nothing_witness :
    ODBCHandle.destructor refusingDriver 0 ODBCHandle.ctor world₀
        = some { result := .ok (), self := ODBCHandle.ctor, world := world₀ } ∧
      ODBCHandle.destructor grantingDriver 0
          { _type := SQL_HANDLE_STMT, _hconn := 7, _handle := NULL }
          { state := (), calls := [.freeHandle SQL_HANDLE_STMT 11] }
        = some { result := .ok (),
                 self := { _type := SQL_HANDLE_STMT, _hconn := 7, _handle := NULL },
                 world := { state := (), calls := [.freeHandle SQL_HANDLE_STMT 11] } } :=
  ⟨(destructor_unallocated_does_nothing refusingDriver 0 ODBCHandle.ctor world₀).1 rfl,
   (destructor_unallocated_does_nothing grantingDriver 0 statementOn7 world₀).2.2 0
      { result := .ok (),
        self := { _type := SQL_HANDLE_STMT, _hconn := 7, _handle := NULL },
        world := { state := (), calls := [.freeHandle SQL_HANDLE_STMT 11] } }
      (by decide) rfl⟩

/-! ### C15: what a successful parse assigns -/

/-- C15: whenever parsing succeeds the match has six sub-matches, groups 1 and 2
took part in it and vendor and component are assigned from them; the data source is
assigned, from group 4, exactly when the optional third bracketed segment (group 3)
took part in the match, and is left unset otherwise. -/
theorem parse_assigns_from_groups (s : wstring) (m : ODBCDiagnosticsMessage)
    (h : GetDiagMessages.parse s = .ok m) :
    (regex_match s diag_message_regex).size = 6 ∧
      (regex_match s diag_message_regex).matched 1 = true ∧
      (regex_match s diag_message_regex).matched 2 = true ∧
      m.vendor = some ((regex_match s diag_message_regex).str 1) ∧
      m.component = some ((regex_match s diag_message_regex).str 2) ∧
      (regex_match s diag_message_regex).matched 4
        = (regex_match s diag_message_regex).matched 3 ∧
      ((regex_match s diag_message_regex).matched 3 = true →
        m.datasource = some ((regex_match s diag_message_regex).str 4)) ∧
      ((regex_match s diag_message_regex).matched 3 = false → m.datasource = none) := by
  obtain ⟨v, c, o, t, hmatch, hm, _⟩ := GetDiagMessages.parse_ok_inv s m h
  rw [hmatch, hm]
  cases o with
  | none => simp [match_results.size, match_results.matched, match_results.str]
  | some d => simp [match_results.size, match_results.matched, match_results.str]

/-- C15 at a message with a data-source segment (the parse is the one of C4). -/
theorem parse_assigns_from_groups_witness :
    (regex_match "[Microsoft][ODBC SQL Server Driver][SQL Server]Gone".toList
        diag_message_regex).size = 6 ∧
      (regex_match "[Microsoft][ODBC SQL Server Driver][SQL Server]Gone".toList
        diag_message_regex).matched 3 = true ∧
      (regex_match "[Microsoft][ODBC Driver Manager]Memory".toList
        diag_message_regex).matched 3 = false :=
  ⟨(parse_assigns_from_groups "[Microsoft][ODBC SQL Server Driver][SQL Server]Gone".toList
      { vendor := some "Microsoft".toList, component := some "ODBC SQL Server Driver".toList,
        datasource := some "SQL Server".toList, text := "Gone".toList } (by decide)).1,
   by decide, by decide⟩

/-! ### C16: failures leave the members alone -/

/-- C16: a failing `Release` leaves `_handle`, `_type` and `_hconn` as they were:
on an unallocated handle it fails before any driver call; on an allocated handle
whose free call is refused it fails (for a parent with `N` diagnostic records and
fuel for `N + 1` polls) after that one call and the handle stays allocated; and
whatever the cause, an outcome that is a failure carries the members unchanged.
`Allocate` on an allocated handle fails without invoking the allocation primitive
and with the members unchanged. -/
theorem failures_keep_members {σ : Type} (drv : Driver σ) (fuel : Nat) (self : ODBCHandle)
    (w : World σ) :
    (self._handle = NULL →
      ODBCHandle.Release drv fuel self w
        = some { result := .error (.ReleaseError "Error, handle not allocated.".toList),
                 self := self, world := w }) ∧
    (self._handle ≠ NULL →
      SQL_SUCCEEDED (drv.SQLFreeHandle w.state self._type self._handle).1 = false →
      ∀ N : Nat,
        HasRecords (drv.SQLGetDiagRec (drv.SQLFreeHandle w.state self._type self._handle).2)
          self._hconn SQL_HANDLE_DBC N →
        N < fuel →
        ∃ e, ODBCHandle.Release drv fuel self w
          = some { result := .error e, self := self,
                   world := { state := (drv.SQLFreeHandle w.state self._type self._handle).2,
                              calls := w.calls ++ [.freeHandle self._type self._handle] } }) ∧
    (∀ o, ODBCHandle.Release drv fuel self w = some o → o.result ≠ .ok () → o.self = self) ∧
    (self._handle ≠ NULL → ∀ (type : SQLSMALLINT) (conn : SQLHANDLE),
      ODBCHandle.Allocate drv fuel self w type conn
        = some { result := .error (.AllocationError "Error, handle already allocated.".toList),
                 self := self, world := w }) := by
  refine ⟨?_, ?_, ?_, ?_⟩
  · intro h
    simp [ODBCHandle.Release, h]
  · intro hself hrc N hsrc hfuel
    exact ⟨_, Release_refused drv fuel self w hself hrc N hsrc hfuel⟩
  · intro o ho hfail
    exact Release_failure_keeps_members drv fuel self w o ho hfail
  · intro h type conn
    simp [ODBCHandle.Allocate, h]

/-- C16 at a fresh handle, at a statement handle whose release is refused, and at
an allocation on that statement handle. -/
theorem failures_keep_members_witness :
    ODBCHandle.Release refusingDriver 2 ODBCHandle.ctor world₀
        = some { result := .error (.ReleaseError "Error, handle not allocated.".toList),
                 self := ODBCHandle.ctor, world := world₀ } ∧
      (∃ e, ODBCHandle.Release refusingDriver 2 statementOn7 world₀
        = some { result := .error e, self := statementOn7,
                 world := { state := (), calls := [.freeHandle SQL_HANDLE_STMT 11] } }) ∧
      ODBCHandle.Allocate refusingDriver 2 statementOn7 world₀ SQL_HANDLE_DESC 8
        = some { result := .error (.AllocationError "Error, handle already allocated.".toList),
                 self := statementOn7, world := world₀ } :=
  ⟨(failures_keep_members refusingDriver 2 ODBCHandle.ctor world₀).1 rfl,
   (failures_keep_members refusingDriver 2 statementOn7 world₀).2.1 (by decide) rfl 1
      ⟨fun k h1 h2 => by interval_cases k; decide, by decide⟩ (by decide),
   (failures_keep_members refusingDriver 2 statementOn7 world₀).2.2.2 (by decide)
      SQL_HANDLE_DESC 8⟩

/-! ### C17: `GetDiagMessages` over an empty source, and its failures -/

/-- C17: when the first fetch answers `SQL_NO_DATA`, `GetDiagMessages` returns the
empty sequence and does not fail, whereas `GetDiagFields` and `GetErrors` over a
source whose first record is already non-success fail with `NoDiagnosticsError`. A
failure of `GetDiagMessages` is either `InvalidMessageFormatError`, after a fetch
that succeeded and whose text does not match the grammar, or the failure of line
125, for a return code of some fetch that is neither `SQL_NO_DATA` nor
`SQL_SUCCESS`. -/
theorem GetDiagMessages_empty_source_and_failures (SQLGetDiagField : DiagFieldFn)
    (handle : SQLHANDLE) (type : Int) :
    ((SQLGetDiagField (toSQLSMALLINT type) handle 1 SQL_DIAG_MESSAGE_TEXT
        (toSQLSMALLINT (SQL_MAX_MESSAGE_LENGTH + 2 : Nat))).rc = SQL_NO_DATA →
      ∀ fuel, 0 < fuel → GetDiagMessages fuel SQLGetDiagField handle type = some (.ok [])) ∧
    (∀ (diagidentifier : Int) (fuel : Nat),
      HasFields SQLGetDiagField handle type diagidentifier 0 → 0 < fuel →
      GetDiagFields fuel SQLGetDiagField handle type diagidentifier
        = some (.error (.NoDiagnosticsError handle diagidentifier))) ∧
    (∀ (SQLGetDiagRec : DiagRecFn) (fuel : Nat),
      HasRecords SQLGetDiagRec handle type 0 → 0 < fuel →
      GetErrors fuel SQLGetDiagRec handle type
        = some (.error (.NoDiagnosticsError handle type))) ∧
    (∀ (fuel : Nat) (e : ODBCException),
      GetDiagMessages fuel SQLGetDiagField handle type = some (.error e) →
      (e = .InvalidMessageFormatError ∧ ∃ (j : SQLSMALLINT) (sz : Nat),
        SQL_SUCCEEDED (SQLGetDiagField (toSQLSMALLINT type) handle j SQL_DIAG_MESSAGE_TEXT
          (toSQLSMALLINT sz)).rc = true ∧
        GetDiagMessages.parse (SQLGetDiagField (toSQLSMALLINT type) handle j
          SQL_DIAG_MESSAGE_TEXT (toSQLSMALLINT sz)).sql_message
            = .error .InvalidMessageFormatError) ∨
      (∃ (j : SQLSMALLINT) (sz : Nat),
        e = .DiagFieldStatusError j (SQLGetDiagField (toSQLSMALLINT type) handle j
          SQL_DIAG_MESSAGE_TEXT (toSQLSMALLINT sz)).rc ∧
        (SQLGetDiagField (toSQLSMALLINT type) handle j SQL_DIAG_MESSAGE_TEXT
          (toSQLSMALLINT sz)).rc ≠ SQL_NO_DATA ∧
        (SQLGetDiagField (toSQLSMALLINT type) handle j SQL_DIAG_MESSAGE_TEXT
          (toSQLSMALLINT sz)).rc ≠ SQL_SUCCESS)) := by
  refine ⟨?_, ?_, ?_, ?_⟩
  · intro h fuel hfuel
    obtain ⟨f, rfl⟩ : ∃ f, fuel = f + 1 := ⟨fuel - 1, by omega⟩
    have hs : SQL_SUCCEEDED SQL_NO_DATA = false := by decide
    simp only [GetDiagMessages, GetDiagMessages.loop, h, hs]
    simp
  · intro diagidentifier fuel hsrc hfuel
    exact GetDiagFields_no_field fuel SQLGetDiagField handle type diagidentifier hsrc hfuel
  · intro SQLGetDiagRec fuel hsrc hfuel
    exact GetErrors_no_record fuel SQLGetDiagRec handle type hsrc hfuel
  · intro fuel e h
    unfold GetDiagMessages at h
    split at h
    · cases h
    · rename_i e' hloop
      injection h with h
      injection h with h
      subst h
      exact Or.inl ((GetDiagMessages.loop_exit SQLGetDiagField handle type _ _ _ _ _ hloop).1
        _ rfl)
    · rename_i rc i messages hloop
      obtain ⟨hne, sz, hrc⟩ :=
        (GetDiagMessages.loop_exit SQLGetDiagField handle type _ _ _ _ _ hloop).2 _ _ _ rfl
      split at h
      · rename_i hcond
        injection h with h
        injection h with h
        subst h
        exact Or.inr ⟨i, sz, (by rw [← hrc]), (by rw [← hrc]; exact hcond.1), (by rw [← hrc]; exact hne)⟩
      · cases h

/-- C17 at a connection without records, and at the null handle, where the first
fetch answers `SQL_INVALID_HANDLE`. -/
theorem GetDiagMessages_empty_source_and_failures_witness :
    GetDiagMessages 1 demoDiagField 9 SQL_HANDLE_DBC = some (.ok []) ∧
      GetDiagFields 1 demoDiagField 9 SQL_HANDLE_DBC SQL_DIAG_MESSAGE_TEXT
        = some (.error (.NoDiagnosticsError 9 SQL_DIAG_MESSAGE_TEXT)) ∧
      GetDiagMessages 1 demoDiagField NULL SQL_HANDLE_DBC
        = some (.error (.DiagFieldStatusError 1 SQL_INVALID_HANDLE)) ∧
      ((ODBCException.DiagFieldStatusError 1 SQL_INVALID_HANDLE = .InvalidMessageFormatError ∧
        ∃ (j : SQLSMALLINT) (sz : Nat),
          SQL_SUCCEEDED (demoDiagField (toSQLSMALLINT SQL_HANDLE_DBC) NULL j
            SQL_DIAG_MESSAGE_TEXT (toSQLSMALLINT sz)).rc = true ∧
          GetDiagMessages.parse (demoDiagField (toSQLSMALLINT SQL_HANDLE_DBC) NULL j
            SQL_DIAG_MESSAGE_TEXT (toSQLSMALLINT sz)).sql_message
              = .error .InvalidMessageFormatError) ∨
       ∃ (j : SQLSMALLINT) (sz : Nat),
        ODBCException.DiagFieldStatusError 1 SQL_INVALID_HANDLE
          = .DiagFieldStatusError j (demoDiagField (toSQLSMALLINT SQL_HANDLE_DBC) NULL j
            SQL_DIAG_MESSAGE_TEXT (toSQLSMALLINT sz)).rc ∧
        (demoDiagField (toSQLSMALLINT SQL_HANDLE_DBC) NULL j SQL_DIAG_MESSAGE_TEXT
          (toSQLSMALLINT sz)).rc ≠ SQL_NO_DATA ∧
        (demoDiagField (toSQLSMALLINT SQL_HANDLE_DBC) NULL j SQL_DIAG_MESSAGE_TEXT
          (toSQLSMALLINT sz)).rc ≠ SQL_SUCCESS) :=
  ⟨(GetDiagMessages_empty_source_and_failures demoDiagField 9 SQL_HANDLE_DBC).1
      (by decide) 1 (by decide),
   (GetDiagMessages_empty_source_and_failures demoDiagField 9 SQL_HANDLE_DBC).2.1
      SQL_DIAG_MESSAGE_TEXT 1 ⟨fun k h1 h2 => by omega, by decide⟩ (by decide),
   by decide,
   (GetDiagMessages_empty_source_and_failures demoDiagField NULL SQL_HANDLE_DBC).2.2.2 1
      (.DiagFieldStatusError 1 SQL_INVALID_HANDLE) (by decide)⟩

/-! ### C18: the shape of the parsed parts -/

/-- C18: whenever parsing succeeds, the text starts with no whitespace character
and holds no line terminator, and vendor, component and data source (when set) hold
no line terminator; the text is what is left of the input after a closing bracket
and a run of whitespace, so the whitespace in front of the text is consumed and not
captured, and the text runs to the end of the input, trailing whitespace
included. -/
theorem parse_parts_shape (s : wstring) (m : ODBCDiagnosticsMessage)
    (h : GetDiagMessages.parse s = .ok m) :
    (∀ ch ∈ m.text.head?, isSpace ch = false) ∧ NoLineTerminator m.text ∧
      (∀ v, m.vendor = some v → NoLineTerminator v) ∧
      (∀ c, m.component = some c → NoLineTerminator c) ∧
      (∀ d, m.datasource = some d → NoLineTerminator d) ∧
      ∃ pre w : wstring, AllSpace w ∧ s = pre ++ ']' :: (w ++ m.text) := by
  obtain ⟨v, c, o, t, _, hm, hv, hc, ho, ht, hts, hdec⟩ := GetDiagMessages.parse_ok_inv s m h
  subst hm
  refine ⟨hts, ht, ?_, ?_, ho, hdec⟩
  · intro v' hv'
    injection hv' with hv'
    exact hv' ▸ hv
  · intro c' hc'
    injection hc' with hc'
    exact hc' ▸ hc

/-- C18 at a message with whitespace around its parts: the whitespace in front of
the text is dropped, the whitespace after it is kept. -/
theorem parse_parts_shape_witness :
    GetDiagMessages.parse " [Microsoft] [ODBC SQL Server Driver] \t Syntax error. ".toList
        = .ok { vendor := some "Microsoft".toList,
                component := some "ODBC SQL Server Driver".toList,
                datasource := none, text := "Syntax error. ".toList } ∧
      ((∀ ch ∈ "Syntax error. ".toList.head?, isSpace ch = false) ∧
        NoLineTerminator "Syntax error. ".toList ∧
        (∀ v, some "Microsoft".toList = some v → NoLineTerminator v) ∧
        (∀ c, some "ODBC SQL Server Driver".toList = some c → NoLineTerminator c) ∧
        (∀ d, (none : Option wstring) = some d → NoLineTerminator d) ∧
        ∃ pre w : wstring, AllSpace w ∧
          " [Microsoft] [ODBC SQL Server Driver] \t Syntax error. ".toList
            = pre ++ ']' :: (w ++ "Syntax error. ".toList)) :=
  ⟨by decide,
   parse_parts_shape " [Microsoft] [ODBC SQL Server Driver] \t Syntax error. ".toList
     { vendor := some "Microsoft".toList, component := some "ODBC SQL Server Driver".toList,
       datasource := none, text := "Syntax error. ".toList } (by decide)⟩

end ODBC
